import Mathlib

/-!
Verification of the PlanDefinition-to-BPMN conversion engine.

This file shallowly embeds the conversion core of the repository
(`src/lib/BpmnFactory.ts` and `src/lib/plandefinition-to-bpmn.ts`) into
Lean 4: the `BpmnFactory` class becomes an explicit state record threaded
through the factory operations, the recursive action-tree walker
`processActions` becomes a structurally recursive function over the
nested action tree, and the XML serializer becomes a pure function on the
finished element/DI lists.  JavaScript truthiness on optional strings is
modelled explicitly (`jsTruthy`, `jsOr`), and the template-literal decimal
rendering of counters is modelled by `natToString`.
-/

namespace PlanDefToBpmn

set_option maxRecDepth 400000

/-! ### JavaScript semantics helpers

`Option String` models a JS value that may be `undefined`; a string is
falsy exactly when it is empty. -/

/-- JS truthiness of a possibly-undefined string: `undefined` and `""` are falsy. -/
def jsTruthy : Option String → Bool
  | some s => s ≠ ""
  | none => false

/-- JS `a || d` for a possibly-undefined string `a` and a string default `d`. -/
def jsOr : Option String → String → String
  | some s, d => if s = "" then d else s
  | none, d => d

/-- JS `a || b` where both sides are possibly-undefined strings. -/
def jsOrOpt : Option String → Option String → Option String
  | some s, b => if s = "" then b else some s
  | none, b => b

/-- JS `Array.prototype.filter(Boolean)` over possibly-undefined strings. -/
def filterTruthy (l : List (Option String)) : List String :=
  l.filterMap fun o =>
    match o with
    | some s => if s = "" then none else some s
    | none => none

/-! ### Decimal rendering of counters

JS template literals render the factory counters in decimal; `natDigits`
is the standard decimal digit expansion used for the generated ids. -/

/-- Decimal digit characters of `n`, most significant first: the
reasoning-side description of decimal rendering. -/
def natDigits (n : Nat) : List Char :=
  if _h : n < 10 then [Nat.digitChar n]
  else natDigits (n / 10) ++ [Nat.digitChar (n % 10)]
decreasing_by
  exact Nat.div_lt_self (by omega) (by omega)

/-- Decimal rendering of a natural number (as a JS template literal does). -/
def natToString (n : Nat) : String := Nat.repr n

/-- Decimal rendering of an integer. -/
def intToString (i : Int) : String :=
  if i < 0 then "-" ++ natToString i.natAbs else natToString i.natAbs

/-- Rendering of a possibly-undefined number in a JS template literal. -/
def optIntToString : Option Int → String
  | some i => intToString i
  | none => "undefined"

/-! ### BPMN data model (from `BpmnFactory.ts`)

The TS `BpmnElement` interface also declares an (entirely unused) field
`default?: string`; no code ever writes or reads it, so it is omitted. -/

structure BpmnElement where
  id : String
  type : String
  name : Option String := none
  documentation : Option String := none
  incoming : Option (List String) := none
  outgoing : Option (List String) := none
  sourceRef : Option String := none
  targetRef : Option String := none
  conditionExpression : Option String := none
deriving DecidableEq, Repr

structure Waypoint where
  x : Int
  y : Int
deriving DecidableEq, Repr

structure BpmnDiElement where
  id : String
  bpmnElement : String
  x : Option Int := none
  y : Option Int := none
  width : Option Int := none
  height : Option Int := none
  waypoints : Option (List Waypoint) := none
deriving DecidableEq, Repr

/-- The private mutable state of the `BpmnFactory` class. -/
structure BpmnFactory where
  elements : List BpmnElement := []
  diElements : List BpmnDiElement := []
  elementCounter : Nat := 0
  flowCounter : Nat := 0
  currentX : Int := 100
  currentY : Int := 150
deriving DecidableEq, Repr

def HORIZONTAL_SPACING : Int := 180
def TASK_WIDTH : Int := 120
def TASK_HEIGHT : Int := 80
def GATEWAY_SIZE : Int := 50
def EVENT_SIZE : Int := 36

/-- An id rendered from a prefix and a counter value: `` `${pfx}_${n}` ``. -/
def mkId (pfx : String) (n : Nat) : String :=
  pfx ++ "_" ++ natToString n

/-- `generateId`: `` `${pfx}_${++this.elementCounter}` ``. -/
def generateId (st : BpmnFactory) (pfx : String) : BpmnFactory × String :=
  let n := st.elementCounter + 1
  ({ st with elementCounter := n }, mkId pfx n)

/-- `generateFlowId`: `` `Flow_${++this.flowCounter}` ``. -/
def generateFlowId (st : BpmnFactory) : BpmnFactory × String :=
  let n := st.flowCounter + 1
  ({ st with flowCounter := n }, mkId "Flow" n)

/-- `getCenterY`: `this.currentY - elementHeight / 2`. -/
def getCenterY (st : BpmnFactory) (elementHeight : Int) : Int :=
  st.currentY - elementHeight / 2

/-- `advanceX`: `this.currentX += elementWidth + HORIZONTAL_SPACING`. -/
def advanceX (st : BpmnFactory) (elementWidth : Int) : BpmnFactory :=
  { st with currentX := st.currentX + elementWidth + HORIZONTAL_SPACING }

/-- The DI shape pushed for a freshly created node of the given size. -/
def mkShape (st : BpmnFactory) (id : String) (w h : Int) : BpmnDiElement :=
  { id := id ++ "_di", bpmnElement := id, x := some st.currentX,
    y := some (getCenterY st h), width := some w, height := some h }

def createStartEvent (st : BpmnFactory) : BpmnFactory × String :=
  let (st1, id) := generateId st "StartEvent"
  let st2 := { st1 with
    elements := st1.elements ++
      [{ id := id, type := "startEvent", name := some "Start", outgoing := some [] }],
    diElements := st1.diElements ++ [mkShape st1 id EVENT_SIZE EVENT_SIZE] }
  (advanceX st2 EVENT_SIZE, id)

def createEndEvent (st : BpmnFactory) (incomingFlowId : String) : BpmnFactory × String :=
  let (st1, id) := generateId st "EndEvent"
  let st2 := { st1 with
    elements := st1.elements ++
      [{ id := id, type := "endEvent", name := some "End", incoming := some [incomingFlowId] }],
    diElements := st1.diElements ++ [mkShape st1 id EVENT_SIZE EVENT_SIZE] }
  (advanceX st2 EVENT_SIZE, id)

def createTask (st : BpmnFactory) (name : String) (incomingFlowId : String)
    (documentation : Option String) : BpmnFactory × String :=
  let (st1, id) := generateId st "Task"
  let st2 := { st1 with
    elements := st1.elements ++
      [{ id := id, type := "task", name := some name, documentation := documentation,
         incoming := some [incomingFlowId], outgoing := some [] }],
    diElements := st1.diElements ++ [mkShape st1 id TASK_WIDTH TASK_HEIGHT] }
  (advanceX st2 TASK_WIDTH, id)

def createExclusiveGateway (st : BpmnFactory) (name : String)
    (incomingFlowId : String) : BpmnFactory × String :=
  let (st1, id) := generateId st "Gateway"
  let st2 := { st1 with
    elements := st1.elements ++
      [{ id := id, type := "exclusiveGateway", name := some name,
         incoming := some [incomingFlowId], outgoing := some [] }],
    diElements := st1.diElements ++ [mkShape st1 id GATEWAY_SIZE GATEWAY_SIZE] }
  (advanceX st2 GATEWAY_SIZE, id)

def createIntermediateEvent (st : BpmnFactory) (name : String) (incomingFlowId : String)
    (documentation : Option String) : BpmnFactory × String :=
  let (st1, id) := generateId st "IntermediateEvent"
  let st2 := { st1 with
    elements := st1.elements ++
      [{ id := id, type := "intermediateEvent", name := some name,
         documentation := documentation,
         incoming := some [incomingFlowId], outgoing := some [] }],
    diElements := st1.diElements ++ [mkShape st1 id EVENT_SIZE EVENT_SIZE] }
  (advanceX st2 EVENT_SIZE, id)

/-- `this.elements.find(e => e.id === targetId)` followed by an in-place
mutation of the found element: update the first element with that id. -/
def updateFirst (l : List BpmnElement) (targetId : String)
    (f : BpmnElement → BpmnElement) : List BpmnElement :=
  match l with
  | [] => []
  | e :: rest => if e.id = targetId then f e :: rest else e :: updateFirst rest targetId f

/-- `if (!sourceElement.outgoing) sourceElement.outgoing = []; sourceElement.outgoing.push(id)`. -/
def pushOutgoing (flowId : String) (e : BpmnElement) : BpmnElement :=
  { e with outgoing := some (e.outgoing.getD [] ++ [flowId]) }

/-- `if (!targetElement.incoming) targetElement.incoming = []; targetElement.incoming.push(id)`. -/
def pushIncoming (flowId : String) (e : BpmnElement) : BpmnElement :=
  { e with incoming := some (e.incoming.getD [] ++ [flowId]) }

/-- `createSequenceFlow(sourceId, targetId, conditionExpression?, name?)`. -/
def createSequenceFlow (st : BpmnFactory) (sourceId targetId : String)
    (conditionExpression name : Option String) : BpmnFactory × String :=
  let (st1, id) := generateFlowId st
  let flow : BpmnElement :=
    { id := id, type := "sequenceFlow", sourceRef := some sourceId, targetRef := some targetId,
      name := if jsTruthy name then name else none,
      conditionExpression := if jsTruthy conditionExpression then conditionExpression else none }
  let els1 := st1.elements ++ [flow]
  let els2 := updateFirst els1 sourceId (pushOutgoing id)
  let els3 := updateFirst els2 targetId (pushIncoming id)
  let dis :=
    match st1.diElements.find? (fun di => di.bpmnElement = sourceId),
          st1.diElements.find? (fun di => di.bpmnElement = targetId) with
    | some sourceShape, some targetShape =>
      let sourceX := sourceShape.x.getD 0 + sourceShape.width.getD 0
      let sourceY := sourceShape.y.getD 0 + sourceShape.height.getD 0 / 2
      let targetX := targetShape.x.getD 0
      let targetY := targetShape.y.getD 0 + targetShape.height.getD 0 / 2
      st1.diElements ++
        [{ id := id ++ "_di", bpmnElement := id,
           waypoints := some [⟨sourceX, sourceY⟩, ⟨targetX, targetY⟩] }]
    | _, _ => st1.diElements
  ({ st1 with elements := els3, diElements := dis }, id)

/-! ### FHIR input model (from `plandefinition-to-bpmn.ts`)

Every field below is optional in the TS interfaces; `Option` models a
possibly-absent JSON field.  The `relatedAction` field of `FhirAction` is
declared in the TS interface but never read by the conversion, so it is
omitted here. -/

structure FhirTrigger where
  type : Option String := none
  name : Option String := none

structure FhirExpressionDef where
  language : Option String := none
  expression : Option String := none

structure FhirCondition where
  kind : Option String := none
  expression : Option FhirExpressionDef := none

structure FhirCoding where
  system : Option String := none
  code : Option String := none
  display : Option String := none

structure FhirCodeableConcept where
  coding : Option (List FhirCoding) := none

structure FhirDynamicValue where
  path : Option String := none
  expression : Option FhirExpressionDef := none

structure FhirDoc where
  type : Option String := none
  display : Option String := none

inductive FhirAction : Type where
  | mk (id : Option String) (title : Option String) (description : Option String)
       (textEquivalent : Option String)
       (documentation : Option (List FhirDoc))
       (trigger : Option (List FhirTrigger))
       (condition : Option (List FhirCondition))
       (type : Option FhirCodeableConcept)
       (dynamicValue : Option (List FhirDynamicValue))
       (action : Option (List FhirAction))

def FhirAction.id : FhirAction → Option String
  | .mk v _ _ _ _ _ _ _ _ _ => v

def FhirAction.title : FhirAction → Option String
  | .mk _ v _ _ _ _ _ _ _ _ => v

def FhirAction.description : FhirAction → Option String
  | .mk _ _ v _ _ _ _ _ _ _ => v

def FhirAction.textEquivalent : FhirAction → Option String
  | .mk _ _ _ v _ _ _ _ _ _ => v

def FhirAction.documentation : FhirAction → Option (List FhirDoc)
  | .mk _ _ _ _ v _ _ _ _ _ => v

def FhirAction.trigger : FhirAction → Option (List FhirTrigger)
  | .mk _ _ _ _ _ v _ _ _ _ => v

def FhirAction.condition : FhirAction → Option (List FhirCondition)
  | .mk _ _ _ _ _ _ v _ _ _ => v

def FhirAction.type : FhirAction → Option FhirCodeableConcept
  | .mk _ _ _ _ _ _ _ v _ _ => v

def FhirAction.dynamicValue : FhirAction → Option (List FhirDynamicValue)
  | .mk _ _ _ _ _ _ _ _ v _ => v

def FhirAction.action : FhirAction → Option (List FhirAction)
  | .mk _ _ _ _ _ _ _ _ _ v => v

structure FhirPlanDefinition where
  resourceType : Option String := none
  id : Option String := none
  title : Option String := none
  description : Option String := none
  action : Option (List FhirAction) := none

/-! ### Documentation composer (`buildActionDocumentation`) -/

/-- The `docParts` array built by `buildActionDocumentation`, in push order. -/
def buildDocParts (a : FhirAction) : List String :=
  (match a.description with
   | some d => if d = "" then [] else ["Description: " ++ d]
   | none => []) ++
  (match a.textEquivalent with
   | some t => if t = "" then [] else ["Text: " ++ t]
   | none => []) ++
  (match a.type with
   | some ty =>
     match ty.coding with
     | some cs =>
       if cs.length > 0 then
         ["Type: " ++ String.intercalate ", "
            (filterTruthy (cs.map fun c => jsOrOpt c.display c.code))]
       else []
     | none => []
   | none => []) ++
  (match a.trigger with
   | some ts =>
     if ts.length > 0 then
       ["Triggers: " ++ String.intercalate "; "
          (ts.map fun t => jsOr t.type "event" ++ ": " ++ jsOr t.name "unnamed")]
     else []
   | none => []) ++
  (match a.condition with
   | some cs =>
     if cs.length > 0 then
       cs.mapIdx fun idx cond =>
         let condText := jsOr (cond.expression.bind FhirExpressionDef.expression) "condition"
         let condLang :=
           if jsTruthy (cond.expression.bind FhirExpressionDef.language) then
             " (" ++ (cond.expression.bind FhirExpressionDef.language).getD "" ++ ")"
           else ""
         "Condition " ++ natToString (idx + 1) ++ ": " ++ condText ++ condLang
     else []
   | none => []) ++
  (match a.dynamicValue with
   | some dvs =>
     if dvs.length > 0 then
       dvs.mapIdx fun idx dv =>
         let expr := jsOr (dv.expression.bind FhirExpressionDef.expression) "expression"
         let path := jsOr dv.path "path"
         let lang :=
           if jsTruthy (dv.expression.bind FhirExpressionDef.language) then
             " (" ++ (dv.expression.bind FhirExpressionDef.language).getD "" ++ ")"
           else ""
         "Dynamic Value " ++ natToString (idx + 1) ++ ": " ++ path ++ " = " ++ expr ++ lang
     else []
   | none => []) ++
  (match a.documentation with
   | some ds =>
     if ds.length > 0 then
       (ds.mapIdx fun idx doc =>
         match doc.display with
         | some s => if s = "" then none
                     else some ("Documentation " ++ natToString (idx + 1) ++ ": " ++ s)
         | none => none).filterMap id
     else []
   | none => [])

def buildActionDocumentation (a : FhirAction) : String :=
  String.intercalate "\n" (buildDocParts a)

/-! ### Action tree walker (`processActions`)

The loop body of `processActions` is split into its three straightline
phases — the trigger block, the condition/plain-task block, and the
nested-action recursion — exactly as the source orders them. -/

/-- The `if (action.trigger && action.trigger.length > 0)` block. -/
def processTriggerPhase (factory : BpmnFactory) (action : FhirAction)
    (documentation : String) (lastElementId : String) : BpmnFactory × String :=
  match action.trigger with
  | some ts =>
    if ts.length > 0 then
      let triggerNames := String.intercalate ", "
        (filterTruthy (ts.map fun t => jsOrOpt t.name t.type))
      let r1 := createIntermediateEvent factory ("Trigger: " ++ triggerNames)
        "temp_incoming" (some documentation)
      let r2 := createSequenceFlow r1.1 lastElementId r1.2 none none
      (r2.1, r1.2)
    else (factory, lastElementId)
  | none => (factory, lastElementId)

/-- The `if (action.condition && action.condition.length > 0)` block and its
`else` (plain task) branch, up to but excluding the nested-action recursion
that both branches share. -/
def processConditionPhase (factory : BpmnFactory) (actionName documentation : String)
    (condition? : Option (List FhirCondition)) (lastElementId : String) :
    BpmnFactory × String :=
  match condition? with
  | some (condition :: _) =>
    let conditionText := jsOr (condition.expression.bind FhirExpressionDef.expression)
      "Check Condition"
    let r1 := createExclusiveGateway factory ("Decision: " ++ conditionText) "temp_incoming"
    let r2 := createSequenceFlow r1.1 lastElementId r1.2 none none
    let r3 := createTask r2.1 actionName "temp_incoming" (some documentation)
    let r4 := createSequenceFlow r3.1 r1.2 r3.2
      (condition.expression.bind FhirExpressionDef.expression) (some "Yes")
    (r4.1, r3.2)
  | _ =>
    let r1 := createTask factory actionName "temp_incoming" (some documentation)
    let r2 := createSequenceFlow r1.1 lastElementId r1.2 none none
    (r2.1, r1.2)

theorem sizeOf_subActions_lt (a : FhirAction) (subs : List FhirAction)
    (h : a.action = some subs) : sizeOf subs < sizeOf a := by
  cases a with
  | mk i t d te doc tr c ty dv sa =>
    simp only [FhirAction.action] at h
    subst h
    simp only [FhirAction.mk.sizeOf_spec, Option.some.sizeOf_spec]
    omega

/-- The `for` loop of `processActions`, carrying the 0-based loop index `i`.
A nested action list restarts the index at 0, as the recursive call to
`processActions` in the source does. -/
def processActionsGo (factory : BpmnFactory) (actions : List FhirAction)
    (i : Nat) (lastElementId : String) : BpmnFactory × String :=
  match actions with
  | [] => (factory, lastElementId)
  | action :: rest =>
    let actionName := jsOr action.title (jsOr action.description
      ("Action " ++ natToString (i + 1)))
    let documentation := buildActionDocumentation action
    let r1 := processTriggerPhase factory action documentation lastElementId
    let r2 := processConditionPhase r1.1 actionName documentation action.condition r1.2
    let r3 :=
      match h : action.action with
      | some subs =>
        if subs.length > 0 then processActionsGo r2.1 subs 0 r2.2 else r2
      | none => r2
    processActionsGo r3.1 rest (i + 1) r3.2
termination_by sizeOf actions
decreasing_by
  · have := sizeOf_subActions_lt action subs h
    simp only [List.cons.sizeOf_spec]
    omega
  · simp only [List.cons.sizeOf_spec]
    omega

/-- `processActions(factory, actions, previousElementId)`. -/
def processActions (factory : BpmnFactory) (actions : List FhirAction)
    (previousElementId : String) : BpmnFactory × String :=
  processActionsGo factory actions 0 previousElementId

/-! ### Top-level conversion (`convertPlanDefinitionToBpmn`)

`buildFactory` is the graph-building part of `convertPlanDefinitionToBpmn`
(start event, action walk or warning, end event, final flow); the string
pushed to `console.warn` is returned alongside the final factory state. -/

def noActionsWarning : String := "PlanDefinition has no actions"

def buildFactory (p : FhirPlanDefinition) : BpmnFactory × List String :=
  let factory : BpmnFactory := {}
  let r1 := createStartEvent factory
  let r2 :=
    match p.action with
    | some acts =>
      if acts.length > 0 then
        (processActions r1.1 acts r1.2, ([] : List String))
      else ((r1.1, r1.2), [noActionsWarning])
    | none => ((r1.1, r1.2), [noActionsWarning])
  let r3 := createEndEvent r2.1.1 "temp_incoming"
  let r4 := createSequenceFlow r3.1 r2.1.2 r3.2 none none
  (r4.1, r2.2)

def invalidRootMsg : String :=
  "Invalid PlanDefinition: resourceType must be \"PlanDefinition\""

/-! ### XML serializer (`generateBpmnXml`, `generateElementXml`, `generateDiXml`,
`escapeXml`) -/

/-- `text.replace(/c/g, r)`: replace every occurrence of the character `c`. -/
def replaceChar (s : String) (c : Char) (r : String) : String :=
  ⟨s.data.flatMap fun d => if d = c then r.data else [d]⟩

/-- `escapeXml`: the five sequential global replaces, after the JS falsy
short-circuit `if (!text) return ''`. -/
def escapeXml (text : String) : String :=
  if text = "" then ""
  else replaceChar (replaceChar (replaceChar (replaceChar
         (replaceChar text '&' "&amp;") '<' "&lt;") '>' "&gt;") '"' "&quot;") '\'' "&apos;"

/-- The `<bpmn:incoming>`/`<bpmn:outgoing>` child lines for one element. -/
def refLines (tag : String) (indent : String) : Option (List String) → List String
  | some l =>
    if l.length > 0 then
      l.map fun r => indent ++ "  <bpmn:" ++ tag ++ ">" ++ escapeXml r ++ "</bpmn:" ++ tag ++ ">"
    else []
  | none => []

/-- The optional `<bpmn:documentation>` child line. -/
def docLines (indent : String) (documentation : Option String) : List String :=
  if jsTruthy documentation then
    [indent ++ "  <bpmn:documentation>" ++ escapeXml (documentation.getD "") ++
     "</bpmn:documentation>"]
  else []

/-- One node element serialized with the given tag, documentation and the
chosen incoming/outgoing child lists (the per-kind `case` bodies share this
shape). -/
def nodeXml (tag : String) (e : BpmnElement) (indent : String)
    (withIncoming withOutgoing : Bool) : String :=
  String.intercalate "\n"
    ([indent ++ "<bpmn:" ++ tag ++ " id=\"" ++ escapeXml e.id ++ "\" name=\"" ++
        escapeXml (jsOr e.name "") ++ "\">"] ++
     docLines indent e.documentation ++
     (if withIncoming then refLines "incoming" indent e.incoming else []) ++
     (if withOutgoing then refLines "outgoing" indent e.outgoing else []) ++
     [indent ++ "</bpmn:" ++ tag ++ ">"])

/-- `generateElementXml(element, indent)`. -/
def generateElementXml (element : BpmnElement) (indent : String) : String :=
  if element.type = "startEvent" then
    nodeXml "startEvent" element indent false true
  else if element.type = "endEvent" then
    nodeXml "endEvent" element indent true false
  else if element.type = "intermediateEvent" then
    nodeXml "intermediateCatchEvent" element indent true true
  else if element.type = "task" then
    nodeXml "task" element indent true true
  else if element.type = "exclusiveGateway" then
    nodeXml "exclusiveGateway" element indent true true
  else if element.type = "sequenceFlow" then
    let attrs :=
      ["id=\"" ++ escapeXml element.id ++ "\"",
       "sourceRef=\"" ++ escapeXml (jsOr element.sourceRef "") ++ "\"",
       "targetRef=\"" ++ escapeXml (jsOr element.targetRef "") ++ "\""] ++
      (if jsTruthy element.name then
        ["name=\"" ++ escapeXml (element.name.getD "") ++ "\""] else [])
    if jsTruthy element.conditionExpression then
      String.intercalate "\n"
        [indent ++ "<bpmn:sequenceFlow " ++ String.intercalate " " attrs ++ ">",
         indent ++ "  <bpmn:conditionExpression xsi:type=\"bpmn:tFormalExpression\" " ++
           "xmlns:xsi=\"http://www.w3.org/2001/XMLSchema-instance\">" ++
           escapeXml (element.conditionExpression.getD "") ++ "</bpmn:conditionExpression>",
         indent ++ "</bpmn:sequenceFlow>"]
    else
      indent ++ "<bpmn:sequenceFlow " ++ String.intercalate " " attrs ++ " />"
  else ""

/-- `generateDiXml(diElement, indent)`. -/
def generateDiXml (diElement : BpmnDiElement) (indent : String) : String :=
  match diElement.waypoints with
  | some wps =>
    String.intercalate "\n"
      ([indent ++ "<bpmndi:BPMNEdge id=\"" ++ escapeXml diElement.id ++
          "\" bpmnElement=\"" ++ escapeXml diElement.bpmnElement ++ "\">"] ++
       wps.map (fun wp => indent ++ "  <di:waypoint x=\"" ++ intToString wp.x ++
          "\" y=\"" ++ intToString wp.y ++ "\" />") ++
       [indent ++ "</bpmndi:BPMNEdge>"])
  | none =>
    String.intercalate "\n"
      [indent ++ "<bpmndi:BPMNShape id=\"" ++ escapeXml diElement.id ++
         "\" bpmnElement=\"" ++ escapeXml diElement.bpmnElement ++ "\">",
       indent ++ "  <dc:Bounds x=\"" ++ optIntToString diElement.x ++ "\" y=\"" ++
         optIntToString diElement.y ++ "\" width=\"" ++ optIntToString diElement.width ++
         "\" height=\"" ++ optIntToString diElement.height ++ "\" />",
       indent ++ "</bpmndi:BPMNShape>"]

/-- `generateBpmnXml(processId, processName, processDescription, elements, diElements)`. -/
def generateBpmnXml (processId processName : String) (processDescription : Option String)
    (elements : List BpmnElement) (diElements : List BpmnDiElement) : String :=
  String.intercalate "\n"
    (["<?xml version=\"1.0\" encoding=\"UTF-8\"?>",
      "<bpmn:definitions " ++
        "xmlns:bpmn=\"http://www.omg.org/spec/BPMN/20100524/MODEL\" " ++
        "xmlns:bpmndi=\"http://www.omg.org/spec/BPMN/20100524/DI\" " ++
        "xmlns:dc=\"http://www.omg.org/spec/DD/20100524/DC\" " ++
        "xmlns:di=\"http://www.omg.org/spec/DD/20100524/DI\" " ++
        "id=\"Definitions_1\" " ++
        "targetNamespace=\"http://bpmn.io/schema/bpmn\">",
      "  <bpmn:process id=\"" ++ escapeXml processId ++ "\" name=\"" ++
        escapeXml processName ++ "\" isExecutable=\"true\">"] ++
     (if jsTruthy processDescription then
       ["    <bpmn:documentation>" ++ escapeXml (processDescription.getD "") ++
        "</bpmn:documentation>"]
      else []) ++
     elements.map (fun e => generateElementXml e "    ") ++
     ["  </bpmn:process>",
      "  <bpmndi:BPMNDiagram id=\"BPMNDiagram_1\">",
      "    <bpmndi:BPMNPlane id=\"BPMNPlane_1\" bpmnElement=\"" ++ escapeXml processId ++
        "\">"] ++
     diElements.map (fun d => generateDiXml d "      ") ++
     ["    </bpmndi:BPMNPlane>",
      "  </bpmndi:BPMNDiagram>",
      "</bpmn:definitions>"])

/-- `convertPlanDefinitionToBpmn(planDefinition)`: the root validation, the
graph construction and the serialization; the thrown error becomes
`Except.error` (the `catch` in the source logs and rethrows it). -/
def convertPlanDefinitionToBpmn (planDefinition : Option FhirPlanDefinition) :
    Except String String :=
  match planDefinition with
  | none => Except.error invalidRootMsg
  | some p =>
    if p.resourceType = some "PlanDefinition" then
      let processId := jsOr p.id "Process_1"
      let processName := jsOr p.title "PlanDefinition Process"
      let processDescription := p.description
      let factory := (buildFactory p).1
      Except.ok (generateBpmnXml processId processName processDescription
        factory.elements factory.diElements)
    else Except.error invalidRootMsg

/-! ### Statement-side definitions -/

/-- Executable substring test: some tail of `haystack` starts with `needle`. -/
def containsStr (haystack needle : String) : Bool :=
  haystack.data.tails.any fun t => needle.data.isPrefixOf t

/-- The entity for one character, following the spec's table for the five
XML reserved characters; other characters stand for themselves. -/
def xmlEntity (c : Char) : List Char :=
  if c = '&' then "&amp;".data
  else if c = '<' then "&lt;".data
  else if c = '>' then "&gt;".data
  else if c = '"' then "&quot;".data
  else if c = '\'' then "&apos;".data
  else [c]

/-- Character-by-character escaping as the spec words it: each of the five
reserved characters replaced by its entity. -/
def escapeXmlSpec (s : String) : String :=
  ⟨s.data.flatMap xmlEntity⟩

/-- The labels the documentation composer may emit, as the spec lists them. -/
def IsDocLabel (l : String) : Prop :=
  l = "Description" ∨ l = "Text" ∨ l = "Type" ∨ l = "Triggers" ∨
  (∃ n : Nat, l = "Condition " ++ natToString (n + 1)) ∨
  (∃ n : Nat, l = "Dynamic Value " ++ natToString (n + 1)) ∨
  (∃ n : Nat, l = "Documentation " ++ natToString (n + 1))

/-- The node-id prefixes the factory issues (flows use `"Flow"`). -/
def nodePrefixes : List String :=
  ["StartEvent", "EndEvent", "Task", "Gateway", "IntermediateEvent"]

/-- The ids of a factory state's elements, in creation order. -/
def ids (els : List BpmnElement) : List String :=
  els.map BpmnElement.id

/-- The graph-consistency invariant of a factory state, over its element
list and the two id counters. -/
structure InvCore (els : List BpmnElement) (ec fc : Nat) : Prop where
  flowIdShape : ∀ e ∈ els, e.type = "sequenceFlow" →
    ∃ k, 1 ≤ k ∧ k ≤ fc ∧ e.id = mkId "Flow" k
  nodeIdShape : ∀ e ∈ els, e.type ≠ "sequenceFlow" →
    ∃ p k, p ∈ nodePrefixes ∧ 1 ≤ k ∧ k ≤ ec ∧ e.id = mkId p k
  idsNodup : (ids els).Nodup
  outgoingSound : ∀ e ∈ els, ∀ x ∈ e.outgoing.getD [],
    ∃ f ∈ els, f.id = x ∧ f.type = "sequenceFlow" ∧ f.sourceRef = some e.id
  incomingSound : ∀ e ∈ els, ∀ x ∈ e.incoming.getD [],
    x = "temp_incoming" ∨
      ∃ f ∈ els, f.id = x ∧ f.type = "sequenceFlow" ∧ f.targetRef = some e.id
  flowLinked : ∀ f ∈ els, f.type = "sequenceFlow" →
    (∃ s ∈ els, some s.id = f.sourceRef ∧ (s.outgoing.getD []).count f.id = 1) ∧
    (∃ t ∈ els, some t.id = f.targetRef ∧ (t.incoming.getD []).count f.id = 1) ∧
    (∀ e ∈ els, some e.id ≠ f.sourceRef → (e.outgoing.getD []).count f.id = 0) ∧
    (∀ e ∈ els, some e.id ≠ f.targetRef → (e.incoming.getD []).count f.id = 0)

/-- The invariant read off a whole factory state. -/
def FactoryInv (st : BpmnFactory) : Prop :=
  InvCore st.elements st.elementCounter st.flowCounter

/-! ### Concrete inputs used by witnesses and counterexamples -/

/-- An action whose title uses XML reserved characters. -/
def actTitled : FhirAction :=
  .mk none (some "A & B <test>") none none none none none none none none

/-- An action with one named trigger. -/
def actTrigger : FhirAction :=
  .mk none (some "T") none none none (some [{ name := some "Lab result" }]) none none none none

/-- An action with one condition whose expression text is the empty string. -/
def actEmptyExpr : FhirAction :=
  .mk none (some "T") none none none none
    (some [{ expression := some { expression := some "" } }]) none none none

/-- An action with one condition carrying a real expression. -/
def condAge : FhirCondition :=
  { kind := some "applicability",
    expression := some { expression := some "patient.age >= 18" } }

def actCond : FhirAction :=
  .mk none (some "Check Eligibility") none none none none
    (some [condAge]) none none none

/-- An action whose `type.coding` list is non-empty but carries neither
display nor code values. -/
def actBlankCoding : FhirAction :=
  .mk none (some "T") none none none none none (some { coding := some [{}] }) none none

/-- A document with the wrong root resource type. -/
def pdPatient : FhirPlanDefinition := { resourceType := some "Patient" }

/-- A PlanDefinition with no action list. -/
def pdEmpty : FhirPlanDefinition := { resourceType := some "PlanDefinition" }

/-- A PlanDefinition with a single action titled with XML reserved characters. -/
def pdTitled : FhirPlanDefinition :=
  { resourceType := some "PlanDefinition", action := some [actTitled] }

/-! ## Infrastructure lemmas

### Decimal rendering -/

theorem natDigits_lt {n : Nat} (h : n < 10) : natDigits n = [Nat.digitChar n] := by
  rw [natDigits]; simp [h]

theorem natDigits_ge {n : Nat} (h : ¬ n < 10) :
    natDigits n = natDigits (n / 10) ++ [Nat.digitChar (n % 10)] := by
  rw [natDigits]; simp [h]

theorem toDigitsCore_eq_natDigits (fuel : Nat) :
    ∀ (n : Nat) (acc : List Char), n < 10 ^ (fuel + 1) →
      Nat.toDigitsCore 10 (fuel + 1) n acc = natDigits n ++ acc := by
  induction fuel with
  | zero =>
    intro n acc h
    have hn : n < 10 := by simpa using h
    have hdiv : n / 10 = 0 := Nat.div_eq_of_lt hn
    rw [natDigits_lt hn]
    simp [Nat.toDigitsCore, hdiv, Nat.mod_eq_of_lt hn]
  | succ f ih =>
    intro n acc h
    by_cases hn : n < 10
    · have hdiv : n / 10 = 0 := Nat.div_eq_of_lt hn
      rw [natDigits_lt hn]
      simp [Nat.toDigitsCore, hdiv, Nat.mod_eq_of_lt hn]
    · have hdiv : ¬ n / 10 = 0 := by
        intro h0
        exact hn ((Nat.div_eq_zero_iff (by omega)).mp h0)
      rw [natDigits_ge hn]
      have hlt : n / 10 < 10 ^ (f + 1) := by
        rw [Nat.div_lt_iff_lt_mul (by omega)]
        calc n < 10 ^ (f + 1 + 1) := h
        _ = 10 ^ (f + 1) * 10 := by ring
      have hrec := ih (n / 10) (Nat.digitChar (n % 10) :: acc) hlt
      have step : Nat.toDigitsCore 10 (f + 1 + 1) n acc =
          Nat.toDigitsCore 10 (f + 1) (n / 10) (Nat.digitChar (n % 10) :: acc) := by
        conv_lhs => rw [Nat.toDigitsCore]
        simp only [hdiv, if_false]
      rw [step, hrec, List.append_assoc]
      simp

theorem natToString_eq (n : Nat) : natToString n = ⟨natDigits n⟩ := by
  have h : n < 10 ^ (n + 1) :=
    calc n < 10 ^ n := Nat.lt_pow_self (by omega) n
    _ ≤ 10 ^ (n + 1) := Nat.pow_le_pow_right (by omega) (by omega)
  show Nat.repr n = _
  rw [Nat.repr, Nat.toDigits, toDigitsCore_eq_natDigits n n [] h]
  simp [List.asString]

theorem natDigits_ne_nil (n : Nat) : natDigits n ≠ [] := by
  by_cases h : n < 10
  · rw [natDigits_lt h]; simp
  · rw [natDigits_ge h]; simp

theorem natDigits_isDigit (n : Nat) : ∀ c ∈ natDigits n, c.isDigit = true := by
  induction n using Nat.strong_induction_on with
  | _ n ih =>
    intro c hc
    have hd : ∀ m < 10, (Nat.digitChar m).isDigit = true := by decide
    by_cases h : n < 10
    · rw [natDigits_lt h] at hc
      simp only [List.mem_singleton] at hc
      exact hc ▸ hd n h
    · rw [natDigits_ge h] at hc
      simp only [List.mem_append, List.mem_singleton] at hc
      rcases hc with hc | hc
      · exact ih (n / 10) (Nat.div_lt_self (by omega) (by omega)) c hc
      · exact hc ▸ hd (n % 10) (Nat.mod_lt n (by omega))

theorem natDigits_inj : ∀ m n : Nat, natDigits m = natDigits n → m = n := by
  have hd : ∀ a < 10, ∀ b < 10, Nat.digitChar a = Nat.digitChar b → a = b := by decide
  intro m
  induction m using Nat.strong_induction_on with
  | _ m ih =>
    intro n h
    by_cases hm : m < 10 <;> by_cases hn : n < 10
    · rw [natDigits_lt hm, natDigits_lt hn] at h
      simp only [List.cons.injEq] at h
      exact hd m hm n hn h.1
    · rw [natDigits_lt hm, natDigits_ge hn] at h
      have hlen := congrArg List.length h
      cases hq : natDigits (n / 10) with
      | nil => exact absurd hq (natDigits_ne_nil (n / 10))
      | cons a l => rw [hq] at hlen; simp at hlen
    · rw [natDigits_ge hm, natDigits_lt hn] at h
      have hlen := congrArg List.length h
      cases hq : natDigits (m / 10) with
      | nil => exact absurd hq (natDigits_ne_nil (m / 10))
      | cons a l => rw [hq] at hlen; simp at hlen
    · rw [natDigits_ge hm, natDigits_ge hn] at h
      have hsplit := List.append_inj' h (by simp)
      have h1 : m / 10 = n / 10 :=
        ih (m / 10) (Nat.div_lt_self (by omega) (by omega)) (n / 10) hsplit.1
      have h2 : m % 10 = n % 10 := by
        have hc := hsplit.2
        simp only [List.cons.injEq] at hc
        exact hd (m % 10) (Nat.mod_lt m (by omega)) (n % 10) (Nat.mod_lt n (by omega)) hc.1
      omega

theorem natToString_length_pos (n : Nat) : 0 < (natToString n).length := by
  rw [natToString_eq]
  show 0 < (natDigits n).length
  cases hq : natDigits n with
  | nil => exact absurd hq (natDigits_ne_nil n)
  | cons a l => simp

/-! ### Generated-id injectivity -/

theorem append_underscore_inj :
    ∀ (l₁ l₂ r₁ r₂ : List Char), '_' ∉ l₁ → '_' ∉ l₂ →
      l₁ ++ '_' :: r₁ = l₂ ++ '_' :: r₂ → l₁ = l₂ ∧ r₁ = r₂ := by
  intro l₁
  induction l₁ with
  | nil =>
    intro l₂ r₁ r₂ _ h₂ h
    cases l₂ with
    | nil => simpa using h
    | cons b t =>
      exfalso
      simp only [List.nil_append, List.cons_append, List.cons.injEq] at h
      exact h₂ (h.1 ▸ List.mem_cons_self b t)
  | cons a t₁ ih =>
    intro l₂ r₁ r₂ h₁ h₂ h
    cases l₂ with
    | nil =>
      exfalso
      simp only [List.nil_append, List.cons_append, List.cons.injEq] at h
      exact h₁ (h.1 ▸ List.mem_cons_self a t₁)
    | cons b t₂ =>
      simp only [List.cons_append, List.cons.injEq] at h
      have := ih t₂ r₁ r₂ (fun hm => h₁ (List.mem_cons_of_mem a hm))
        (fun hm => h₂ (List.mem_cons_of_mem b hm)) h.2
      exact ⟨by rw [h.1, this.1], this.2⟩

theorem mkId_data (p : String) (n : Nat) :
    (mkId p n).data = p.data ++ '_' :: natDigits n := by
  rw [mkId, natToString_eq]
  show (p ++ "_" ++ ⟨natDigits n⟩).data = _
  simp [String.data_append]

theorem mkId_inj (p₁ p₂ : String) (m n : Nat)
    (h₁ : '_' ∉ p₁.data) (h₂ : '_' ∉ p₂.data)
    (h : mkId p₁ m = mkId p₂ n) : p₁ = p₂ ∧ m = n := by
  have hdata := congrArg String.data h
  rw [mkId_data, mkId_data] at hdata
  have := append_underscore_inj p₁.data p₂.data _ _ h₁ h₂ hdata
  exact ⟨congrArg String.mk this.1, natDigits_inj m n this.2⟩

theorem mkId_ne_temp (p : String) (n : Nat)
    (h : '_' ∉ p.data) (hp : p ≠ "temp") : mkId p n ≠ "temp_incoming" := by
  intro heq
  have hdata := congrArg String.data heq
  rw [mkId_data] at hdata
  have hrhs : "temp_incoming".data = "temp".data ++ '_' :: "incoming".data := by decide
  rw [hrhs] at hdata
  have := append_underscore_inj p.data "temp".data _ _ h (by decide) hdata
  exact hp (congrArg String.mk this.1)

theorem mkId_flow_inj {m n : Nat} (h : mkId "Flow" m = mkId "Flow" n) : m = n :=
  (mkId_inj "Flow" "Flow" m n (by decide) (by decide) h).2

theorem nodePrefix_no_underscore {p : String} (hp : p ∈ nodePrefixes) : '_' ∉ p.data := by
  simp only [nodePrefixes, List.mem_cons, List.not_mem_nil, or_false] at hp
  rcases hp with rfl | rfl | rfl | rfl | rfl <;> decide

theorem nodePrefix_ne_flow {p : String} (hp : p ∈ nodePrefixes) : p ≠ "Flow" := by
  simp only [nodePrefixes, List.mem_cons, List.not_mem_nil, or_false] at hp
  rcases hp with rfl | rfl | rfl | rfl | rfl <;> decide

theorem nodePrefix_ne_temp {p : String} (hp : p ∈ nodePrefixes) : p ≠ "temp" := by
  simp only [nodePrefixes, List.mem_cons, List.not_mem_nil, or_false] at hp
  rcases hp with rfl | rfl | rfl | rfl | rfl <;> decide

theorem flowId_ne_temp (n : Nat) : mkId "Flow" n ≠ "temp_incoming" :=
  mkId_ne_temp "Flow" n (by decide) (by decide)

theorem nodeId_ne_temp {p : String} (hp : p ∈ nodePrefixes) (n : Nat) :
    mkId p n ≠ "temp_incoming" :=
  mkId_ne_temp p n (nodePrefix_no_underscore hp) (nodePrefix_ne_temp hp)

theorem nodeId_ne_flowId {p : String} (hp : p ∈ nodePrefixes) (m n : Nat) :
    mkId p m ≠ mkId "Flow" n := fun h =>
  nodePrefix_ne_flow hp (mkId_inj p "Flow" m n (nodePrefix_no_underscore hp) (by decide) h).1

/-! ### `updateFirst` and id-list lemmas -/

theorem mem_ids_iff {x : String} {l : List BpmnElement} :
    x ∈ ids l ↔ ∃ e ∈ l, e.id = x := by
  simp [ids, List.mem_map]

theorem ids_append (l₁ l₂ : List BpmnElement) : ids (l₁ ++ l₂) = ids l₁ ++ ids l₂ := by
  simp [ids]

theorem map_update_id (l : List BpmnElement) (tid : String)
    (f : BpmnElement → BpmnElement) (h : tid ∉ ids l) :
    (l.map fun x => if x.id = tid then f x else x) = l := by
  induction l with
  | nil => rfl
  | cons e rest ih =>
    have hne : e.id ≠ tid := by
      intro he
      exact h (by simp [ids, he])
    have hrest : tid ∉ ids rest := fun hm => h (by simp [ids] at hm ⊢; right; exact hm)
    simp only [List.map_cons, if_neg hne, ih hrest]

theorem updateFirst_eq_map (l : List BpmnElement) (tid : String)
    (f : BpmnElement → BpmnElement) (h : (ids l).Nodup) :
    updateFirst l tid f = l.map fun x => if x.id = tid then f x else x := by
  induction l with
  | nil => rfl
  | cons e rest ih =>
    have h' : e.id ∉ ids rest ∧ (ids rest).Nodup := by
      simpa [ids] using h
    by_cases he : e.id = tid
    · rw [updateFirst]
      simp only [if_pos he, List.map_cons]
      rw [map_update_id rest tid f (he ▸ h'.1)]
    · rw [updateFirst]
      simp only [if_neg he, List.map_cons, ih h'.2]

theorem ids_map_of_id_preserved (l : List BpmnElement) (g : BpmnElement → BpmnElement)
    (h : ∀ x, (g x).id = x.id) : ids (l.map g) = ids l := by
  simp only [ids, List.map_map]
  exact List.map_congr_left fun a _ => h a

/-! ### The element-list transformation performed by `createSequenceFlow` -/

/-- The per-element effect of the two `updateFirst` passes of
`createSequenceFlow`, once `updateFirst` is known to rewrite pointwise
(which it does on a list with no duplicate ids). -/
def applyFlowLink (sourceId targetId fid : String) (x : BpmnElement) : BpmnElement :=
  let y := if x.id = sourceId then pushOutgoing fid x else x
  if y.id = targetId then pushIncoming fid y else y

theorem applyFlowLink_id (sourceId targetId fid : String) (x : BpmnElement) :
    (applyFlowLink sourceId targetId fid x).id = x.id := by
  unfold applyFlowLink pushOutgoing pushIncoming
  by_cases h1 : x.id = sourceId <;> by_cases h2 : x.id = targetId <;>
    simp [h1, h2] <;> split_ifs <;> simp_all

theorem applyFlowLink_type (sourceId targetId fid : String) (x : BpmnElement) :
    (applyFlowLink sourceId targetId fid x).type = x.type := by
  unfold applyFlowLink pushOutgoing pushIncoming
  by_cases h1 : x.id = sourceId <;> by_cases h2 : x.id = targetId <;>
    simp [h1, h2] <;> split_ifs <;> simp_all

theorem applyFlowLink_sourceRef (sourceId targetId fid : String) (x : BpmnElement) :
    (applyFlowLink sourceId targetId fid x).sourceRef = x.sourceRef := by
  unfold applyFlowLink pushOutgoing pushIncoming
  by_cases h1 : x.id = sourceId <;> by_cases h2 : x.id = targetId <;>
    simp [h1, h2] <;> split_ifs <;> simp_all

theorem applyFlowLink_targetRef (sourceId targetId fid : String) (x : BpmnElement) :
    (applyFlowLink sourceId targetId fid x).targetRef = x.targetRef := by
  unfold applyFlowLink pushOutgoing pushIncoming
  by_cases h1 : x.id = sourceId <;> by_cases h2 : x.id = targetId <;>
    simp [h1, h2] <;> split_ifs <;> simp_all

theorem applyFlowLink_outgoing (sourceId targetId fid : String) (x : BpmnElement) :
    (applyFlowLink sourceId targetId fid x).outgoing =
      if x.id = sourceId then some (x.outgoing.getD [] ++ [fid]) else x.outgoing := by
  unfold applyFlowLink pushOutgoing pushIncoming
  by_cases h1 : x.id = sourceId <;> by_cases h2 : x.id = targetId <;>
    simp [h1, h2] <;> split_ifs <;> simp_all

theorem applyFlowLink_incoming (sourceId targetId fid : String) (x : BpmnElement) :
    (applyFlowLink sourceId targetId fid x).incoming =
      if x.id = targetId then some (x.incoming.getD [] ++ [fid]) else x.incoming := by
  unfold applyFlowLink pushOutgoing pushIncoming
  by_cases h1 : x.id = sourceId <;> by_cases h2 : x.id = targetId <;>
    simp [h1, h2] <;> split_ifs <;> simp_all

/-- The sequence-flow element `createSequenceFlow` pushes. -/
def newFlowElem (st : BpmnFactory) (sourceId targetId : String)
    (ce nm : Option String) : BpmnElement :=
  { id := mkId "Flow" (st.flowCounter + 1), type := "sequenceFlow",
    sourceRef := some sourceId, targetRef := some targetId,
    name := if jsTruthy nm then nm else none,
    conditionExpression := if jsTruthy ce then ce else none }

theorem ids_append_newFlow (st : BpmnFactory) (sourceId targetId : String)
    (ce nm : Option String) :
    ids (st.elements ++ [newFlowElem st sourceId targetId ce nm]) =
      ids st.elements ++ [mkId "Flow" (st.flowCounter + 1)] := by
  rw [ids_append]
  simp [ids, newFlowElem]

theorem nodup_ids_append_newFlow (st : BpmnFactory) (sourceId targetId : String)
    (ce nm : Option String) (hN : (ids st.elements).Nodup)
    (hFresh : mkId "Flow" (st.flowCounter + 1) ∉ ids st.elements) :
    (ids (st.elements ++ [newFlowElem st sourceId targetId ce nm])).Nodup := by
  rw [ids_append_newFlow]
  rw [List.nodup_append]
  refine ⟨hN, by simp, ?_⟩
  intro a ha
  simp only [List.mem_singleton]
  intro hb
  subst hb
  exact hFresh ha

theorem createSequenceFlow_elements_eq_map (st : BpmnFactory) (sourceId targetId : String)
    (ce nm : Option String) (hN : (ids st.elements).Nodup)
    (hFresh : mkId "Flow" (st.flowCounter + 1) ∉ ids st.elements) :
    (createSequenceFlow st sourceId targetId ce nm).1.elements =
      (st.elements ++ [newFlowElem st sourceId targetId ce nm]).map
        (applyFlowLink sourceId targetId (mkId "Flow" (st.flowCounter + 1))) := by
  have hN1 := nodup_ids_append_newFlow st sourceId targetId ce nm hN hFresh
  show updateFirst (updateFirst
      (st.elements ++ [newFlowElem st sourceId targetId ce nm]) sourceId _) targetId _ = _
  rw [updateFirst_eq_map _ _ _ hN1]
  have hids2 : ids ((st.elements ++ [newFlowElem st sourceId targetId ce nm]).map
      (fun x => if x.id = sourceId then pushOutgoing (mkId "Flow" (st.flowCounter + 1)) x
        else x)) = ids (st.elements ++ [newFlowElem st sourceId targetId ce nm]) := by
    apply ids_map_of_id_preserved
    intro x
    by_cases h : x.id = sourceId <;> simp [h, pushOutgoing]
  rw [updateFirst_eq_map _ _ _ (by rw [hids2]; exact hN1)]
  rw [List.map_map]
  apply List.map_congr_left
  intro a _
  simp only [Function.comp_apply, applyFlowLink]

/-! ### Invariant preservation -/

theorem count_append_singleton (l : List String) (a b : String) :
    (l ++ [b]).count a = l.count a + if b = a then 1 else 0 := by
  rw [List.count_append]
  by_cases h : b = a <;> simp [h, List.count_singleton]

theorem createSequenceFlow_inv (st : BpmnFactory) (sourceId targetId : String)
    (ce nm : Option String) (hInv : FactoryInv st)
    (hS : sourceId ∈ ids st.elements) (hT : targetId ∈ ids st.elements) :
    FactoryInv (createSequenceFlow st sourceId targetId ce nm).1 ∧
    ids (createSequenceFlow st sourceId targetId ce nm).1.elements =
      ids st.elements ++ [mkId "Flow" (st.flowCounter + 1)] ∧
    (createSequenceFlow st sourceId targetId ce nm).1.elementCounter = st.elementCounter ∧
    (createSequenceFlow st sourceId targetId ce nm).1.flowCounter = st.flowCounter + 1 := by
  obtain ⟨hFlowShape, hNodeShape, hNodup, hOutS, hInS, hLinked⟩ := hInv
  set fid := mkId "Flow" (st.flowCounter + 1) with hfid
  -- freshness of the new flow id
  have hFresh : fid ∉ ids st.elements := by
    intro hmem
    obtain ⟨e, he, heid⟩ := mem_ids_iff.mp hmem
    by_cases ht : e.type = "sequenceFlow"
    · obtain ⟨k, hk1, hk2, hk3⟩ := hFlowShape e he ht
      have : k = st.flowCounter + 1 := mkId_flow_inj (by rw [← hk3, heid])
      omega
    · obtain ⟨p, k, hp, _, _, hk3⟩ := hNodeShape e he ht
      exact nodeId_ne_flowId hp k (st.flowCounter + 1) (by rw [← hk3, heid])
  have hSne : sourceId ≠ fid := fun h => hFresh (h ▸ hS)
  have hTne : targetId ≠ fid := fun h => hFresh (h ▸ hT)
  -- zero counts of the fresh id in every existing list
  have hcount_out : ∀ e ∈ st.elements, (e.outgoing.getD []).count fid = 0 := by
    intro e he
    rw [List.count_eq_zero]
    intro hmem
    obtain ⟨f, hf, hfid', _, _⟩ := hOutS e he fid hmem
    exact hFresh (mem_ids_iff.mpr ⟨f, hf, hfid'⟩)
  have hcount_in : ∀ e ∈ st.elements, (e.incoming.getD []).count fid = 0 := by
    intro e he
    rw [List.count_eq_zero]
    intro hmem
    rcases hInS e he fid hmem with h | ⟨f, hf, hfid', _, _⟩
    · exact flowId_ne_temp (st.flowCounter + 1) h
    · exact hFresh (mem_ids_iff.mpr ⟨f, hf, hfid'⟩)
  -- the result's element list in map normal form
  have hels := createSequenceFlow_elements_eq_map st sourceId targetId ce nm hNodup hFresh
  set flow := newFlowElem st sourceId targetId ce nm with hflowdef
  set G := applyFlowLink sourceId targetId fid with hGdef
  have hflow_id : flow.id = fid := rfl
  have hflow_type : flow.type = "sequenceFlow" := rfl
  have hflow_out : flow.outgoing = none := rfl
  have hflow_in : flow.incoming = none := rfl
  have hGflow : G flow = flow := by
    rw [hGdef]
    simp only [applyFlowLink]
    rw [hflow_id]
    have hns : ¬ (fid = sourceId) := fun h => hSne h.symm
    rw [if_neg hns, hflow_id]
    have hnt : ¬ (fid = targetId) := fun h => hTne h.symm
    rw [if_neg hnt]
  have hids3 : ids (createSequenceFlow st sourceId targetId ce nm).1.elements =
      ids st.elements ++ [fid] := by
    rw [hels, ids_map_of_id_preserved _ _ (applyFlowLink_id sourceId targetId fid),
      ids_append_newFlow]
  -- membership in the result
  have hmem3 : ∀ e, e ∈ (createSequenceFlow st sourceId targetId ce nm).1.elements ↔
      ∃ x, (x ∈ st.elements ∨ x = flow) ∧ e = G x := by
    intro e
    rw [hels]
    simp only [List.mem_map, List.mem_append, List.mem_singleton]
    constructor
    · rintro ⟨x, hx, rfl⟩; exact ⟨x, hx, rfl⟩
    · rintro ⟨x, hx, rfl⟩; exact ⟨x, hx, rfl⟩
  refine ⟨?_, hids3, rfl, rfl⟩
  show InvCore (createSequenceFlow st sourceId targetId ce nm).1.elements
    st.elementCounter (st.flowCounter + 1)
  refine ⟨?_, ?_, ?_, ?_, ?_, ?_⟩
  -- flowIdShape
  · intro e he htype
    obtain ⟨x, hx, rfl⟩ := (hmem3 e).mp he
    rw [applyFlowLink_type] at htype
    rw [applyFlowLink_id]
    rcases hx with hx | rfl
    · obtain ⟨k, hk1, hk2, hk3⟩ := hFlowShape x hx htype
      exact ⟨k, hk1, by omega, hk3⟩
    · exact ⟨st.flowCounter + 1, by omega, by omega, rfl⟩
  -- nodeIdShape
  · intro e he htype
    obtain ⟨x, hx, rfl⟩ := (hmem3 e).mp he
    rw [applyFlowLink_type] at htype
    rw [applyFlowLink_id]
    rcases hx with hx | rfl
    · obtain ⟨p, k, hp, hk1, hk2, hk3⟩ := hNodeShape x hx htype
      exact ⟨p, k, hp, hk1, hk2, hk3⟩
    · exact absurd hflow_type htype
  -- idsNodup
  · rw [hids3]
    rw [List.nodup_append]
    refine ⟨hNodup, by simp, ?_⟩
    intro a ha
    simp only [List.mem_singleton]
    intro hb
    subst hb
    exact hFresh ha
  -- outgoingSound
  · intro e he x hx
    obtain ⟨a, haa, rfl⟩ := (hmem3 e).mp he
    rw [applyFlowLink_outgoing] at hx
    rw [applyFlowLink_id]
    have hold : a ∈ st.elements → x ∈ a.outgoing.getD [] →
        ∃ f ∈ (createSequenceFlow st sourceId targetId ce nm).1.elements,
          f.id = x ∧ f.type = "sequenceFlow" ∧ f.sourceRef = some a.id := by
      intro hb hxb
      obtain ⟨f, hf, hf1, hf2, hf3⟩ := hOutS a hb x hxb
      refine ⟨G f, (hmem3 (G f)).mpr ⟨f, Or.inl hf, rfl⟩, ?_, ?_, ?_⟩
      · rw [applyFlowLink_id]; exact hf1
      · rw [applyFlowLink_type]; exact hf2
      · rw [applyFlowLink_sourceRef]; exact hf3
    by_cases hsrc : a.id = sourceId
    · rw [if_pos hsrc] at hx
      simp only [Option.getD_some, List.mem_append, List.mem_singleton] at hx
      rcases hx with hx | rfl
      · rcases haa with haa | rfl
        · exact hold haa hx
        · rw [hflow_out] at hx
          simp at hx
      · refine ⟨G flow, (hmem3 (G flow)).mpr ⟨flow, Or.inr rfl, rfl⟩, ?_, ?_, ?_⟩
        · rw [hGflow]; exact hflow_id
        · rw [hGflow]; exact hflow_type
        · rw [hGflow]
          show some sourceId = some a.id
          rw [hsrc]
    · rw [if_neg hsrc] at hx
      rcases haa with haa | rfl
      · exact hold haa hx
      · rw [hflow_out] at hx
        simp at hx
  -- incomingSound
  · intro e he x hx
    obtain ⟨a, haa, rfl⟩ := (hmem3 e).mp he
    rw [applyFlowLink_incoming] at hx
    rw [applyFlowLink_id]
    have hold : a ∈ st.elements → x ∈ a.incoming.getD [] →
        x = "temp_incoming" ∨
        ∃ f ∈ (createSequenceFlow st sourceId targetId ce nm).1.elements,
          f.id = x ∧ f.type = "sequenceFlow" ∧ f.targetRef = some a.id := by
      intro hb hxb
      rcases hInS a hb x hxb with h | ⟨f, hf, hf1, hf2, hf3⟩
      · exact Or.inl h
      · refine Or.inr ⟨G f, (hmem3 (G f)).mpr ⟨f, Or.inl hf, rfl⟩, ?_, ?_, ?_⟩
        · rw [applyFlowLink_id]; exact hf1
        · rw [applyFlowLink_type]; exact hf2
        · rw [applyFlowLink_targetRef]; exact hf3
    by_cases htgt : a.id = targetId
    · rw [if_pos htgt] at hx
      simp only [Option.getD_some, List.mem_append, List.mem_singleton] at hx
      rcases hx with hx | rfl
      · rcases haa with haa | rfl
        · exact hold haa hx
        · rw [hflow_in] at hx
          simp at hx
      · refine Or.inr ⟨G flow, (hmem3 (G flow)).mpr ⟨flow, Or.inr rfl, rfl⟩, ?_, ?_, ?_⟩
        · rw [hGflow]; exact hflow_id
        · rw [hGflow]; exact hflow_type
        · rw [hGflow]
          show some targetId = some a.id
          rw [htgt]
    · rw [if_neg htgt] at hx
      rcases haa with haa | rfl
      · exact hold haa hx
      · rw [hflow_in] at hx
        simp at hx
  -- flowLinked
  · intro f hf htype
    obtain ⟨b, hb, rfl⟩ := (hmem3 f).mp hf
    rw [applyFlowLink_type] at htype
    rcases hb with hb | rfl
    · -- an old flow: its id differs from fid, all counts are preserved
      obtain ⟨k, hk1, hk2, hk3⟩ := hFlowShape b hb htype
      have hbne : b.id ≠ fid := by
        rw [hk3, hfid]
        intro h
        have := mkId_flow_inj h
        omega
      obtain ⟨⟨s, hs, hsid, hscount⟩, ⟨t, htm, htid, htcount⟩, hz1, hz2⟩ :=
        hLinked b hb htype
      have hGout_pres : ∀ a, a ∈ st.elements →
          ((G a).outgoing.getD []).count b.id = (a.outgoing.getD []).count b.id := by
        intro a ha
        rw [applyFlowLink_outgoing]
        by_cases hsrc : a.id = sourceId
        · rw [if_pos hsrc]
          simp only [Option.getD_some]
          rw [count_append_singleton, if_neg (fun h => hbne h.symm)]
          omega
        · rw [if_neg hsrc]
      have hGin_pres : ∀ a, a ∈ st.elements →
          ((G a).incoming.getD []).count b.id = (a.incoming.getD []).count b.id := by
        intro a ha
        rw [applyFlowLink_incoming]
        by_cases htgt : a.id = targetId
        · rw [if_pos htgt]
          simp only [Option.getD_some]
          rw [count_append_singleton, if_neg (fun h => hbne h.symm)]
          omega
        · rw [if_neg htgt]
      refine ⟨⟨G s, (hmem3 (G s)).mpr ⟨s, Or.inl hs, rfl⟩, ?_, ?_⟩,
              ⟨G t, (hmem3 (G t)).mpr ⟨t, Or.inl htm, rfl⟩, ?_, ?_⟩, ?_, ?_⟩
      · rw [applyFlowLink_id, applyFlowLink_sourceRef]; exact hsid
      · rw [applyFlowLink_id, hGout_pres s hs]; exact hscount
      · rw [applyFlowLink_id, applyFlowLink_targetRef]; exact htid
      · rw [applyFlowLink_id, hGin_pres t htm]; exact htcount
      · intro e he hne
        obtain ⟨a, ha, rfl⟩ := (hmem3 e).mp he
        rw [applyFlowLink_id, applyFlowLink_sourceRef] at hne
        rw [applyFlowLink_id]
        rcases ha with ha | rfl
        · rw [hGout_pres a ha]
          exact hz1 a ha hne
        · rw [hGflow, hflow_out]
          simp
      · intro e he hne
        obtain ⟨a, ha, rfl⟩ := (hmem3 e).mp he
        rw [applyFlowLink_id, applyFlowLink_targetRef] at hne
        rw [applyFlowLink_id]
        rcases ha with ha | rfl
        · rw [hGin_pres a ha]
          exact hz2 a ha hne
        · rw [hGflow, hflow_in]
          simp
    · -- the new flow itself
      obtain ⟨s, hsmem, hsid⟩ := mem_ids_iff.mp hS
      obtain ⟨t, htmem, htid⟩ := mem_ids_iff.mp hT
      have hsrcref : flow.sourceRef = some sourceId := rfl
      have htgtref : flow.targetRef = some targetId := rfl
      refine ⟨⟨G s, (hmem3 (G s)).mpr ⟨s, Or.inl hsmem, rfl⟩, ?_, ?_⟩,
              ⟨G t, (hmem3 (G t)).mpr ⟨t, Or.inl htmem, rfl⟩, ?_, ?_⟩, ?_, ?_⟩
      · rw [applyFlowLink_id, hGflow, hsrcref, hsid]
      · rw [applyFlowLink_id, hflow_id, applyFlowLink_outgoing, if_pos hsid]
        simp only [Option.getD_some]
        rw [count_append_singleton, if_pos rfl, hcount_out s hsmem]
      · rw [applyFlowLink_id, hGflow, htgtref, htid]
      · rw [applyFlowLink_id, hflow_id, applyFlowLink_incoming, if_pos htid]
        simp only [Option.getD_some]
        rw [count_append_singleton, if_pos rfl, hcount_in t htmem]
      · intro e he hne
        obtain ⟨a, ha, rfl⟩ := (hmem3 e).mp he
        rw [applyFlowLink_id, hGflow, hsrcref] at hne
        rw [applyFlowLink_id, hflow_id, applyFlowLink_outgoing]
        have hasrc : a.id ≠ sourceId := fun h => hne (by rw [h])
        rw [if_neg hasrc]
        rcases ha with ha | rfl
        · exact hcount_out a ha
        · rw [hflow_out]
          simp
      · intro e he hne
        obtain ⟨a, ha, rfl⟩ := (hmem3 e).mp he
        rw [applyFlowLink_id, hGflow, htgtref] at hne
        rw [applyFlowLink_id, hflow_id, applyFlowLink_incoming]
        have hatgt : a.id ≠ targetId := fun h => hne (by rw [h])
        rw [if_neg hatgt]
        rcases ha with ha | rfl
        · exact hcount_in a ha
        · rw [hflow_in]
          simp

theorem pushNode_inv (st : BpmnFactory) (e : BpmnElement) (p : String)
    (hp : p ∈ nodePrefixes)
    (hid : e.id = mkId p (st.elementCounter + 1))
    (htype : e.type ≠ "sequenceFlow")
    (hout : e.outgoing.getD [] = [])
    (hinc : ∀ x ∈ e.incoming.getD [], x = "temp_incoming")
    (hInv : FactoryInv st) :
    InvCore (st.elements ++ [e]) (st.elementCounter + 1) st.flowCounter := by
  obtain ⟨hFlowShape, hNodeShape, hNodup, hOutS, hInS, hLinked⟩ := hInv
  have hFresh : e.id ∉ ids st.elements := by
    intro hmem
    obtain ⟨e', he', heid⟩ := mem_ids_iff.mp hmem
    by_cases ht : e'.type = "sequenceFlow"
    · obtain ⟨k, _, _, hk3⟩ := hFlowShape e' he' ht
      exact nodeId_ne_flowId hp (st.elementCounter + 1) k (by rw [← hid, ← heid, hk3])
    · obtain ⟨q, k, hq, _, hk2, hk3⟩ := hNodeShape e' he' ht
      have := mkId_inj q p k (st.elementCounter + 1)
        (nodePrefix_no_underscore hq) (nodePrefix_no_underscore hp)
        (by rw [← hk3, heid, hid])
      omega
  have hmm : ∀ x, x ∈ st.elements ++ [e] ↔ x ∈ st.elements ∨ x = e := by
    intro x
    simp [List.mem_append]
  refine ⟨?_, ?_, ?_, ?_, ?_, ?_⟩
  · intro f hf ht
    rcases (hmm f).mp hf with hf | rfl
    · exact hFlowShape f hf ht
    · exact absurd ht htype
  · intro f hf ht
    rcases (hmm f).mp hf with hf | rfl
    · obtain ⟨q, k, hq, hk1, hk2, hk3⟩ := hNodeShape f hf ht
      exact ⟨q, k, hq, hk1, by omega, hk3⟩
    · exact ⟨p, st.elementCounter + 1, hp, by omega, by omega, hid⟩
  · rw [ids_append]
    rw [List.nodup_append]
    refine ⟨hNodup, by simp [ids], ?_⟩
    intro a ha
    simp only [ids, List.map_cons, List.map_nil, List.mem_singleton]
    intro hb
    subst hb
    exact hFresh ha
  · intro f hf x hx
    rcases (hmm f).mp hf with hf | rfl
    · obtain ⟨g, hg, hg1, hg2, hg3⟩ := hOutS f hf x hx
      exact ⟨g, (hmm g).mpr (Or.inl hg), hg1, hg2, hg3⟩
    · rw [hout] at hx
      simp at hx
  · intro f hf x hx
    rcases (hmm f).mp hf with hf | rfl
    · rcases hInS f hf x hx with h | ⟨g, hg, hg1, hg2, hg3⟩
      · exact Or.inl h
      · exact Or.inr ⟨g, (hmm g).mpr (Or.inl hg), hg1, hg2, hg3⟩
    · exact Or.inl (hinc x hx)
  · intro f hf ht
    rcases (hmm f).mp hf with hf | rfl
    · obtain ⟨⟨s, hs, hs1, hs2⟩, ⟨t, htm, ht1, ht2⟩, hz1, hz2⟩ := hLinked f hf ht
      have hfid_ne_temp : f.id ≠ "temp_incoming" := by
        obtain ⟨k, _, _, hk3⟩ := hFlowShape f hf ht
        rw [hk3]
        exact flowId_ne_temp k
      refine ⟨⟨s, (hmm s).mpr (Or.inl hs), hs1, hs2⟩,
              ⟨t, (hmm t).mpr (Or.inl htm), ht1, ht2⟩, ?_, ?_⟩
      · intro e' he' hne
        rcases (hmm e').mp he' with he' | rfl
        · exact hz1 e' he' hne
        · rw [hout]
          simp
      · intro e' he' hne
        rcases (hmm e').mp he' with he' | rfl
        · exact hz2 e' he' hne
        · rw [List.count_eq_zero]
          intro hmem
          exact hfid_ne_temp (hinc f.id hmem)
    · exact absurd ht htype

theorem createStartEvent_inv (st : BpmnFactory) (hInv : FactoryInv st) :
    FactoryInv (createStartEvent st).1 ∧
    ids (createStartEvent st).1.elements = ids st.elements ++ [(createStartEvent st).2] ∧
    (createStartEvent st).1.flowCounter = st.flowCounter := by
  refine ⟨?_, by simp [createStartEvent, generateId, advanceX, ids_append, ids], rfl⟩
  show InvCore (st.elements ++ [_]) (st.elementCounter + 1) st.flowCounter
  exact pushNode_inv st _ "StartEvent" (by simp [nodePrefixes]) rfl (by simp)
    (by simp) (by simp) hInv

theorem createEndEvent_inv (st : BpmnFactory) (hInv : FactoryInv st) :
    FactoryInv (createEndEvent st "temp_incoming").1 ∧
    ids (createEndEvent st "temp_incoming").1.elements =
      ids st.elements ++ [(createEndEvent st "temp_incoming").2] ∧
    (createEndEvent st "temp_incoming").1.flowCounter = st.flowCounter := by
  refine ⟨?_, by simp [createEndEvent, generateId, advanceX, ids_append, ids], rfl⟩
  show InvCore (st.elements ++ [_]) (st.elementCounter + 1) st.flowCounter
  exact pushNode_inv st _ "EndEvent" (by simp [nodePrefixes]) rfl (by simp)
    (by simp) (by simp) hInv

theorem createTask_inv (st : BpmnFactory) (n : String) (d : Option String)
    (hInv : FactoryInv st) :
    FactoryInv (createTask st n "temp_incoming" d).1 ∧
    ids (createTask st n "temp_incoming" d).1.elements =
      ids st.elements ++ [(createTask st n "temp_incoming" d).2] ∧
    (createTask st n "temp_incoming" d).1.flowCounter = st.flowCounter := by
  refine ⟨?_, by simp [createTask, generateId, advanceX, ids_append, ids], rfl⟩
  show InvCore (st.elements ++ [_]) (st.elementCounter + 1) st.flowCounter
  exact pushNode_inv st _ "Task" (by simp [nodePrefixes]) rfl (by simp)
    (by simp) (by simp) hInv

theorem createExclusiveGateway_inv (st : BpmnFactory) (n : String)
    (hInv : FactoryInv st) :
    FactoryInv (createExclusiveGateway st n "temp_incoming").1 ∧
    ids (createExclusiveGateway st n "temp_incoming").1.elements =
      ids st.elements ++ [(createExclusiveGateway st n "temp_incoming").2] ∧
    (createExclusiveGateway st n "temp_incoming").1.flowCounter = st.flowCounter := by
  refine ⟨?_, by simp [createExclusiveGateway, generateId, advanceX, ids_append, ids], rfl⟩
  show InvCore (st.elements ++ [_]) (st.elementCounter + 1) st.flowCounter
  exact pushNode_inv st _ "Gateway" (by simp [nodePrefixes]) rfl (by simp)
    (by simp) (by simp) hInv

theorem createIntermediateEvent_inv (st : BpmnFactory) (n : String) (d : Option String)
    (hInv : FactoryInv st) :
    FactoryInv (createIntermediateEvent st n "temp_incoming" d).1 ∧
    ids (createIntermediateEvent st n "temp_incoming" d).1.elements =
      ids st.elements ++ [(createIntermediateEvent st n "temp_incoming" d).2] ∧
    (createIntermediateEvent st n "temp_incoming" d).1.flowCounter = st.flowCounter := by
  refine ⟨?_, by simp [createIntermediateEvent, generateId, advanceX, ids_append, ids], rfl⟩
  show InvCore (st.elements ++ [_]) (st.elementCounter + 1) st.flowCounter
  exact pushNode_inv st _ "IntermediateEvent" (by simp [nodePrefixes]) rfl (by simp)
    (by simp) (by simp) hInv

theorem processTriggerPhase_inv (factory : BpmnFactory) (a : FhirAction)
    (doc lastId : String) (hInv : FactoryInv factory)
    (hlast : lastId ∈ ids factory.elements) :
    FactoryInv (processTriggerPhase factory a doc lastId).1 ∧
    ids factory.elements <+: ids (processTriggerPhase factory a doc lastId).1.elements ∧
    (processTriggerPhase factory a doc lastId).2 ∈
      ids (processTriggerPhase factory a doc lastId).1.elements := by
  rcases h : a.trigger with _ | ts
  · simp only [processTriggerPhase, h]
    exact ⟨hInv, List.prefix_refl _, hlast⟩
  · by_cases hlen : ts.length > 0
    · simp only [processTriggerPhase, h, if_pos hlen]
      set nm := "Trigger: " ++ String.intercalate ", "
        (filterTruthy (ts.map fun t => jsOrOpt t.name t.type)) with hnm
      obtain ⟨hI1, hids1, _⟩ := createIntermediateEvent_inv factory nm (some doc) hInv
      set ev := createIntermediateEvent factory nm "temp_incoming" (some doc) with hev
      have hlast1 : lastId ∈ ids ev.1.elements := by
        rw [hids1]; exact List.mem_append_left _ hlast
      have hev1 : ev.2 ∈ ids ev.1.elements := by
        rw [hids1]; exact List.mem_append_right _ (by simp)
      obtain ⟨hI2, hids2, _, _⟩ := createSequenceFlow_inv ev.1 lastId ev.2 none none
        hI1 hlast1 hev1
      refine ⟨hI2, ?_, ?_⟩
      · calc ids factory.elements
            <+: ids ev.1.elements := by rw [hids1]; exact List.prefix_append _ _
          _ <+: _ := by rw [hids2]; exact List.prefix_append _ _
      · rw [hids2]
        exact List.mem_append_left _ hev1
    · simp only [processTriggerPhase, h, if_neg hlen]
      exact ⟨hInv, List.prefix_refl _, hlast⟩

theorem processConditionPhase_inv (factory : BpmnFactory) (an doc : String)
    (conds : Option (List FhirCondition)) (lastId : String) (hInv : FactoryInv factory)
    (hlast : lastId ∈ ids factory.elements) :
    FactoryInv (processConditionPhase factory an doc conds lastId).1 ∧
    ids factory.elements <+: ids (processConditionPhase factory an doc conds lastId).1.elements ∧
    (processConditionPhase factory an doc conds lastId).2 ∈
      ids (processConditionPhase factory an doc conds lastId).1.elements := by
  have plain : ∀ st : BpmnFactory, FactoryInv st → lastId ∈ ids st.elements →
      FactoryInv (createSequenceFlow (createTask st an "temp_incoming" (some doc)).1
        lastId (createTask st an "temp_incoming" (some doc)).2 none none).1 ∧
      ids st.elements <+: ids (createSequenceFlow
        (createTask st an "temp_incoming" (some doc)).1
        lastId (createTask st an "temp_incoming" (some doc)).2 none none).1.elements ∧
      (createTask st an "temp_incoming" (some doc)).2 ∈
        ids (createSequenceFlow (createTask st an "temp_incoming" (some doc)).1
          lastId (createTask st an "temp_incoming" (some doc)).2 none none).1.elements := by
    intro st hI hl
    obtain ⟨hI1, hids1, _⟩ := createTask_inv st an (some doc) hI
    have hl1 : lastId ∈ ids (createTask st an "temp_incoming" (some doc)).1.elements := by
      rw [hids1]; exact List.mem_append_left _ hl
    have ht1 : (createTask st an "temp_incoming" (some doc)).2 ∈
        ids (createTask st an "temp_incoming" (some doc)).1.elements := by
      rw [hids1]; exact List.mem_append_right _ (by simp)
    obtain ⟨hI2, hids2, _, _⟩ := createSequenceFlow_inv _ lastId
      (createTask st an "temp_incoming" (some doc)).2 none none hI1 hl1 ht1
    refine ⟨hI2, ?_, ?_⟩
    · calc ids st.elements
          <+: ids (createTask st an "temp_incoming" (some doc)).1.elements := by
            rw [hids1]; exact List.prefix_append _ _
        _ <+: _ := by rw [hids2]; exact List.prefix_append _ _
    · rw [hids2]
      exact List.mem_append_left _ ht1
  rcases hc : conds with _ | lst
  · simp only [processConditionPhase]
    exact plain factory hInv hlast
  · rcases lst with _ | ⟨c, cs⟩
    · simp only [processConditionPhase]
      exact plain factory hInv hlast
    · simp only [processConditionPhase]
      obtain ⟨hI1, hids1, _⟩ := createExclusiveGateway_inv factory
        ("Decision: " ++ jsOr (c.expression.bind FhirExpressionDef.expression)
          "Check Condition") hInv
      set g := createExclusiveGateway factory
        ("Decision: " ++ jsOr (c.expression.bind FhirExpressionDef.expression)
          "Check Condition") "temp_incoming" with hg
      have hlast1 : lastId ∈ ids g.1.elements := by
        rw [hids1]; exact List.mem_append_left _ hlast
      have hgw1 : g.2 ∈ ids g.1.elements := by
        rw [hids1]; exact List.mem_append_right _ (by simp)
      obtain ⟨hI2, hids2, _, _⟩ := createSequenceFlow_inv g.1 lastId g.2 none none
        hI1 hlast1 hgw1
      set f2 := createSequenceFlow g.1 lastId g.2 none none with hf2
      obtain ⟨hI3, hids3, _⟩ := createTask_inv f2.1 an (some doc) hI2
      set t3 := createTask f2.1 an "temp_incoming" (some doc) with ht3
      have hgw3 : g.2 ∈ ids t3.1.elements := by
        rw [hids3]
        exact List.mem_append_left _ (by rw [hids2]; exact List.mem_append_left _ hgw1)
      have htk3 : t3.2 ∈ ids t3.1.elements := by
        rw [hids3]; exact List.mem_append_right _ (by simp)
      obtain ⟨hI4, hids4, _, _⟩ := createSequenceFlow_inv t3.1 g.2 t3.2
        (c.expression.bind FhirExpressionDef.expression) (some "Yes") hI3 hgw3 htk3
      refine ⟨hI4, ?_, ?_⟩
      · calc ids factory.elements
            <+: ids g.1.elements := by rw [hids1]; exact List.prefix_append _ _
          _ <+: ids f2.1.elements := by rw [hids2]; exact List.prefix_append _ _
          _ <+: ids t3.1.elements := by rw [hids3]; exact List.prefix_append _ _
          _ <+: _ := by rw [hids4]; exact List.prefix_append _ _
      · rw [hids4]
        exact List.mem_append_left _ htk3

theorem processActionsGo_inv_aux : ∀ (n : Nat) (actions : List FhirAction),
    sizeOf actions ≤ n → ∀ (factory : BpmnFactory) (i : Nat) (lastId : String),
    FactoryInv factory → lastId ∈ ids factory.elements →
    FactoryInv (processActionsGo factory actions i lastId).1 ∧
    ids factory.elements <+: ids (processActionsGo factory actions i lastId).1.elements ∧
    (processActionsGo factory actions i lastId).2 ∈
      ids (processActionsGo factory actions i lastId).1.elements := by
  intro n
  induction n with
  | zero =>
    intro actions hsize
    exfalso
    have : 0 < sizeOf actions := by cases actions <;> simp_arith
    omega
  | succ n ih =>
    intro actions hsize factory i lastId hInv hlast
    cases actions with
    | nil =>
      rw [processActionsGo]
      exact ⟨hInv, List.prefix_refl _, hlast⟩
    | cons action rest =>
      rw [processActionsGo]
      obtain ⟨hI1, hp1, hm1⟩ := processTriggerPhase_inv factory action
        (buildActionDocumentation action) lastId hInv hlast
      set r1 := processTriggerPhase factory action
        (buildActionDocumentation action) lastId with hr1
      obtain ⟨hI2, hp2, hm2⟩ := processConditionPhase_inv r1.1
        (jsOr action.title (jsOr action.description ("Action " ++ natToString (i + 1))))
        (buildActionDocumentation action) action.condition r1.2 hI1 hm1
      set r2 := processConditionPhase r1.1
        (jsOr action.title (jsOr action.description ("Action " ++ natToString (i + 1))))
        (buildActionDocumentation action) action.condition r1.2 with hr2
      have hsz : sizeOf (action :: rest) = 1 + sizeOf action + sizeOf rest := by
        simp_arith
      have hr3 : FactoryInv (match _h : action.action with
            | some subs =>
              if subs.length > 0 then processActionsGo r2.1 subs 0 r2.2 else r2
            | none => r2).1 ∧
          ids r2.1.elements <+: ids (match _h : action.action with
            | some subs =>
              if subs.length > 0 then processActionsGo r2.1 subs 0 r2.2 else r2
            | none => r2).1.elements ∧
          (match _h : action.action with
            | some subs =>
              if subs.length > 0 then processActionsGo r2.1 subs 0 r2.2 else r2
            | none => r2).2 ∈ ids (match _h : action.action with
            | some subs =>
              if subs.length > 0 then processActionsGo r2.1 subs 0 r2.2 else r2
            | none => r2).1.elements := by
        split
        · rename_i subs heq
          by_cases hlen : subs.length > 0
          · rw [if_pos hlen]
            have hsub : sizeOf subs ≤ n := by
              have h1 := sizeOf_subActions_lt action subs heq
              omega
            exact ih subs hsub r2.1 0 r2.2 hI2 hm2
          · rw [if_neg hlen]
            exact ⟨hI2, List.prefix_refl _, hm2⟩
        · exact ⟨hI2, List.prefix_refl _, hm2⟩
      have hrest : sizeOf rest ≤ n := by omega
      obtain ⟨hI4, hp4, hm4⟩ := ih rest hrest _ (i + 1) _ hr3.1 hr3.2.2
      refine ⟨hI4, ?_, hm4⟩
      calc ids factory.elements <+: ids r1.1.elements := hp1
        _ <+: ids r2.1.elements := hp2
        _ <+: _ := hr3.2.1.trans hp4

theorem processActions_inv (factory : BpmnFactory) (actions : List FhirAction)
    (previousElementId : String) (hInv : FactoryInv factory)
    (hlast : previousElementId ∈ ids factory.elements) :
    FactoryInv (processActions factory actions previousElementId).1 ∧
    ids factory.elements <+:
      ids (processActions factory actions previousElementId).1.elements ∧
    (processActions factory actions previousElementId).2 ∈
      ids (processActions factory actions previousElementId).1.elements :=
  processActionsGo_inv_aux (sizeOf actions) actions (Nat.le_refl _) factory 0
    previousElementId hInv hlast

theorem buildFactory_inv (p : FhirPlanDefinition) :
    FactoryInv (buildFactory p).1 := by
  have hInv0 : FactoryInv ({} : BpmnFactory) := by
    refine ⟨?_, ?_, ?_, ?_, ?_, ?_⟩ <;> simp [ids]
  obtain ⟨hI1, hids1, _⟩ := createStartEvent_inv {} hInv0
  set r1 := createStartEvent {} with hr1def
  have hm1 : r1.2 ∈ ids r1.1.elements := by
    rw [hids1]; exact List.mem_append_right _ (by simp)
  have hstep : ∀ st : BpmnFactory, ∀ lastId, FactoryInv st →
      lastId ∈ ids st.elements →
      FactoryInv (createSequenceFlow (createEndEvent st "temp_incoming").1 lastId
        (createEndEvent st "temp_incoming").2 none none).1 := by
    intro st lastId hI hl
    obtain ⟨hI2, hids2, _⟩ := createEndEvent_inv st hI
    have hl2 : lastId ∈ ids (createEndEvent st "temp_incoming").1.elements := by
      rw [hids2]; exact List.mem_append_left _ hl
    have he2 : (createEndEvent st "temp_incoming").2 ∈
        ids (createEndEvent st "temp_incoming").1.elements := by
      rw [hids2]; exact List.mem_append_right _ (by simp)
    exact (createSequenceFlow_inv _ lastId _ none none hI2 hl2 he2).1
  rcases ha : p.action with _ | acts
  · rw [buildFactory]
    simp only [ha]
    exact hstep r1.1 r1.2 hI1 hm1
  · by_cases hlen : acts.length > 0
    · rw [buildFactory]
      simp only [ha, if_pos hlen]
      obtain ⟨hI2, _, hm2⟩ := processActions_inv r1.1 acts r1.2 hI1 hm1
      exact hstep _ _ hI2 hm2
    · rw [buildFactory]
      simp only [ha, if_neg hlen]
      exact hstep r1.1 r1.2 hI1 hm1

/-! ### Freshness and decomposition helpers for the per-step theorems -/

theorem flowId_fresh (st : BpmnFactory) (hInv : FactoryInv st) :
    mkId "Flow" (st.flowCounter + 1) ∉ ids st.elements := by
  intro hmem
  obtain ⟨e, he, heid⟩ := mem_ids_iff.mp hmem
  by_cases ht : e.type = "sequenceFlow"
  · obtain ⟨k, hk1, hk2, hk3⟩ := hInv.flowIdShape e he ht
    have : k = st.flowCounter + 1 := mkId_flow_inj (by rw [← hk3, heid])
    omega
  · obtain ⟨p, k, hp, _, _, hk3⟩ := hInv.nodeIdShape e he ht
    exact nodeId_ne_flowId hp k (st.flowCounter + 1) (by rw [← hk3, heid])

theorem newNodeId_fresh (st : BpmnFactory) (p : String) (hp : p ∈ nodePrefixes)
    (hInv : FactoryInv st) :
    mkId p (st.elementCounter + 1) ∉ ids st.elements := by
  intro hmem
  obtain ⟨e, he, heid⟩ := mem_ids_iff.mp hmem
  by_cases ht : e.type = "sequenceFlow"
  · obtain ⟨k, _, _, hk3⟩ := hInv.flowIdShape e he ht
    exact nodeId_ne_flowId hp (st.elementCounter + 1) k (by rw [← heid, hk3])
  · obtain ⟨q, k, hq, _, hk2, hk3⟩ := hInv.nodeIdShape e he ht
    have := mkId_inj q p k (st.elementCounter + 1)
      (nodePrefix_no_underscore hq) (nodePrefix_no_underscore hp)
      (by rw [← hk3, heid])
    omega

theorem applyFlowLink_of_ne (sourceId targetId fid : String) (x : BpmnElement)
    (h1 : x.id ≠ sourceId) (h2 : x.id ≠ targetId) :
    applyFlowLink sourceId targetId fid x = x := by
  unfold applyFlowLink
  rw [if_neg h1, if_neg h2]

theorem createSequenceFlow_elements_decomp (st : BpmnFactory) (sourceId targetId : String)
    (ce nm : Option String) (hInv : FactoryInv st)
    (hS : sourceId ∈ ids st.elements) (hT : targetId ∈ ids st.elements) :
    (createSequenceFlow st sourceId targetId ce nm).1.elements =
      st.elements.map (applyFlowLink sourceId targetId (mkId "Flow" (st.flowCounter + 1)))
        ++ [newFlowElem st sourceId targetId ce nm] := by
  have hFresh := flowId_fresh st hInv
  rw [createSequenceFlow_elements_eq_map st sourceId targetId ce nm hInv.idsNodup hFresh,
    List.map_append]
  congr 1
  have hSne : (newFlowElem st sourceId targetId ce nm).id ≠ sourceId := by
    intro h
    apply hFresh
    have h' : mkId "Flow" (st.flowCounter + 1) = sourceId := h
    rw [h']; exact hS
  have hTne : (newFlowElem st sourceId targetId ce nm).id ≠ targetId := by
    intro h
    apply hFresh
    have h' : mkId "Flow" (st.flowCounter + 1) = targetId := h
    rw [h']; exact hT
  simp only [List.map_cons, List.map_nil]
  rw [applyFlowLink_of_ne _ _ _ _ hSne hTne]

theorem applyFlowLink_target_only (sourceId targetId fid : String) (x : BpmnElement)
    (h1 : x.id ≠ sourceId) (h2 : x.id = targetId) :
    applyFlowLink sourceId targetId fid x = pushIncoming fid x := by
  unfold applyFlowLink
  rw [if_neg h1, if_pos h2]

theorem factoryInv_init : FactoryInv ({} : BpmnFactory) := by
  refine ⟨?_, ?_, ?_, ?_, ?_, ?_⟩ <;> simp [ids]

theorem factoryInv_start : FactoryInv (createStartEvent {}).1 :=
  (createStartEvent_inv {} factoryInv_init).1

/-! ### Per-step description of the trigger phase -/

/-- C2 (amended): for every action with a non-empty trigger list, the
walker's trigger phase appends exactly one IntermediateEvent and one flow,
the event's name is `"Trigger: "` followed by the trigger names (falling
back to types) with falsy values filtered out and joined with `", "` — the
original claim omits the `"Trigger: "` prefix — the composed documentation
is attached, the flow runs from the current frontier to the event, and the
frontier advances to the event. -/
theorem processTriggerPhase_step (factory : BpmnFactory) (a : FhirAction)
    (doc lastId : String) (ts : List FhirTrigger)
    (h : a.trigger = some ts) (hne : ts ≠ [])
    (hInv : FactoryInv factory) (hlast : lastId ∈ ids factory.elements) :
    ∃ ev flow : BpmnElement,
      (processTriggerPhase factory a doc lastId).1.elements.drop factory.elements.length
        = [ev, flow] ∧
      ids (processTriggerPhase factory a doc lastId).1.elements =
        ids factory.elements ++ [ev.id, flow.id] ∧
      ev.type = "intermediateEvent" ∧
      ev.name = some ("Trigger: " ++ String.intercalate ", "
        (filterTruthy (ts.map fun t => jsOrOpt t.name t.type))) ∧
      ev.documentation = some doc ∧
      flow.type = "sequenceFlow" ∧
      flow.sourceRef = some lastId ∧ flow.targetRef = some ev.id ∧
      (processTriggerPhase factory a doc lastId).2 = ev.id := by
  have hlen : ts.length > 0 := by
    cases ts with
    | nil => exact absurd rfl hne
    | cons t ts' => simp
  simp only [processTriggerPhase, h, if_pos hlen]
  set evName := "Trigger: " ++ String.intercalate ", "
    (filterTruthy (ts.map fun t => jsOrOpt t.name t.type)) with hevName
  set step1 := createIntermediateEvent factory evName "temp_incoming" (some doc) with hstep1
  set evElem : BpmnElement :=
    { id := mkId "IntermediateEvent" (factory.elementCounter + 1),
      type := "intermediateEvent", name := some evName, documentation := some doc,
      incoming := some ["temp_incoming"], outgoing := some [] } with hevElem
  have hels1 : step1.1.elements = factory.elements ++ [evElem] := rfl
  have hid1 : step1.2 = evElem.id := rfl
  obtain ⟨hI1, hids1, hfc1⟩ := createIntermediateEvent_inv factory evName (some doc) hInv
  have hevFresh : evElem.id ∉ ids factory.elements :=
    newNodeId_fresh factory "IntermediateEvent" (by simp [nodePrefixes]) hInv
  have hlast1 : lastId ∈ ids step1.1.elements := by
    rw [hids1]; exact List.mem_append_left _ hlast
  have hev1 : step1.2 ∈ ids step1.1.elements := by
    rw [hids1]; exact List.mem_append_right _ (by simp)
  have hdecomp := createSequenceFlow_elements_decomp step1.1 lastId step1.2 none none
    hI1 hlast1 hev1
  obtain ⟨_, hids2, _, _⟩ := createSequenceFlow_inv step1.1 lastId step1.2 none none
    hI1 hlast1 hev1
  have hGev : applyFlowLink lastId step1.2 (mkId "Flow" (step1.1.flowCounter + 1)) evElem
      = pushIncoming (mkId "Flow" (step1.1.flowCounter + 1)) evElem := by
    apply applyFlowLink_target_only
    · intro hx
      exact hevFresh (hx ▸ hlast)
    · rw [hid1]
  refine ⟨pushIncoming (mkId "Flow" (step1.1.flowCounter + 1)) evElem,
    newFlowElem step1.1 lastId step1.2 none none, ?_, ?_, rfl, rfl, rfl, rfl, rfl, ?_, ?_⟩
  · rw [hdecomp, hels1, List.map_append, List.append_assoc]
    rw [List.drop_left' (by simp)]
    rw [List.map_cons, List.map_nil, hGev]
    rfl
  · rw [hids2, hids1, hid1, List.append_assoc]
    rfl
  · show some step1.2 = some (pushIncoming (mkId "Flow" (step1.1.flowCounter + 1)) evElem).id
    rw [hid1]
    rfl
  · show step1.2 = (pushIncoming (mkId "Flow" (step1.1.flowCounter + 1)) evElem).id
    rw [hid1]
    rfl

theorem applyFlowLink_source_only (sourceId targetId fid : String) (x : BpmnElement)
    (h1 : x.id = sourceId) (h2 : x.id ≠ targetId) :
    applyFlowLink sourceId targetId fid x = pushOutgoing fid x := by
  unfold applyFlowLink
  rw [if_pos h1]
  exact if_neg h2

/-! ### Per-step description of the condition phase -/

/-- C3 (amended): for every action with a non-empty condition list, the
walker uses only the first condition and appends exactly one
ExclusiveGateway named `"Decision: "` followed by the condition's
expression text — falling back to `"Check Condition"` when that text is
absent *or empty* (the original claim handles only absence) — one flow
from the frontier to the gateway, one Task for the action, and one flow
named `"Yes"` from the gateway to the task whose condition-expression is
the expression text exactly when that text is non-empty (an empty text
yields no condition-expression, against the claim's "verbatim"); the
frontier becomes the task. -/
theorem processConditionPhase_step (factory : BpmnFactory) (an doc lastId : String)
    (c : FhirCondition) (cs : List FhirCondition)
    (hInv : FactoryInv factory) (hlast : lastId ∈ ids factory.elements) :
    ∃ gw flow1 task flow2 : BpmnElement,
      (processConditionPhase factory an doc (some (c :: cs)) lastId).1.elements.drop
          factory.elements.length = [gw, flow1, task, flow2] ∧
      ids (processConditionPhase factory an doc (some (c :: cs)) lastId).1.elements =
        ids factory.elements ++ [gw.id, flow1.id, task.id, flow2.id] ∧
      gw.type = "exclusiveGateway" ∧
      gw.name = some ("Decision: " ++
        jsOr (c.expression.bind FhirExpressionDef.expression) "Check Condition") ∧
      flow1.type = "sequenceFlow" ∧
      flow1.sourceRef = some lastId ∧ flow1.targetRef = some gw.id ∧
      flow1.name = none ∧ flow1.conditionExpression = none ∧
      task.type = "task" ∧ task.name = some an ∧ task.documentation = some doc ∧
      flow2.type = "sequenceFlow" ∧
      flow2.sourceRef = some gw.id ∧ flow2.targetRef = some task.id ∧
      flow2.name = some "Yes" ∧
      flow2.conditionExpression =
        (if jsTruthy (c.expression.bind FhirExpressionDef.expression) then
          c.expression.bind FhirExpressionDef.expression else none) ∧
      (processConditionPhase factory an doc (some (c :: cs)) lastId).2 = task.id := by
  simp only [processConditionPhase]
  set gwName := "Decision: " ++
    jsOr (c.expression.bind FhirExpressionDef.expression) "Check Condition" with hgwName
  set s1 := createExclusiveGateway factory gwName "temp_incoming" with hs1
  set gwElem : BpmnElement :=
    { id := mkId "Gateway" (factory.elementCounter + 1), type := "exclusiveGateway",
      name := some gwName, incoming := some ["temp_incoming"], outgoing := some [] }
    with hgwElem
  have hels1 : s1.1.elements = factory.elements ++ [gwElem] := rfl
  have hid1 : s1.2 = gwElem.id := rfl
  obtain ⟨hI1, hids1, _⟩ := createExclusiveGateway_inv factory gwName hInv
  have hgwFresh : gwElem.id ∉ ids factory.elements :=
    newNodeId_fresh factory "Gateway" (by simp [nodePrefixes]) hInv
  have hlast1 : lastId ∈ ids s1.1.elements := by
    rw [hids1]; exact List.mem_append_left _ hlast
  have hgw1 : s1.2 ∈ ids s1.1.elements := by
    rw [hids1]; exact List.mem_append_right _ (by simp)
  -- first flow
  have hdecomp1 := createSequenceFlow_elements_decomp s1.1 lastId s1.2 none none
    hI1 hlast1 hgw1
  obtain ⟨hI2, hids2, hec2, hfc2⟩ := createSequenceFlow_inv s1.1 lastId s1.2 none none
    hI1 hlast1 hgw1
  set s2 := createSequenceFlow s1.1 lastId s1.2 none none with hs2
  set fid1 := mkId "Flow" (s1.1.flowCounter + 1) with hfid1
  set flow1Elem := newFlowElem s1.1 lastId s1.2 none none with hflow1
  have hGgw : applyFlowLink lastId s1.2 fid1 gwElem = pushIncoming fid1 gwElem := by
    apply applyFlowLink_target_only
    · intro hx
      exact hgwFresh (hx ▸ hlast)
    · rw [hid1]
  have hels2 : s2.1.elements =
      factory.elements.map (applyFlowLink lastId s1.2 fid1) ++
        [pushIncoming fid1 gwElem, flow1Elem] := by
    rw [hs2, hdecomp1, hels1, List.map_append, List.map_cons, List.map_nil, hGgw,
      List.append_assoc]
    rfl
  -- the task
  obtain ⟨hI3, hids3, _⟩ := createTask_inv s2.1 an (some doc) hI2
  set s3 := createTask s2.1 an "temp_incoming" (some doc) with hs3
  set taskElem : BpmnElement :=
    { id := mkId "Task" (s2.1.elementCounter + 1), type := "task", name := some an,
      documentation := some doc, incoming := some ["temp_incoming"], outgoing := some [] }
    with htaskElem
  have hels3 : s3.1.elements = s2.1.elements ++ [taskElem] := rfl
  have hid3 : s3.2 = taskElem.id := rfl
  have htaskFresh : taskElem.id ∉ ids s2.1.elements :=
    newNodeId_fresh s2.1 "Task" (by simp [nodePrefixes]) hI2
  have hgw_in_2 : gwElem.id ∈ ids s2.1.elements := by
    rw [hids2]
    exact List.mem_append_left _ (by rw [hids1, hid1]; exact List.mem_append_right _ (by simp))
  have htask_ne_gw : taskElem.id ≠ gwElem.id := by
    intro hx
    exact htaskFresh (hx ▸ hgw_in_2)
  have hgw3 : s1.2 ∈ ids s3.1.elements := by
    rw [hids3, hid1]
    exact List.mem_append_left _ hgw_in_2
  have htask3 : s3.2 ∈ ids s3.1.elements := by
    rw [hids3]; exact List.mem_append_right _ (by simp)
  -- second flow
  have hdecomp2 := createSequenceFlow_elements_decomp s3.1 s1.2 s3.2
    (c.expression.bind FhirExpressionDef.expression) (some "Yes") hI3 hgw3 htask3
  obtain ⟨hI4, hids4, _, _⟩ := createSequenceFlow_inv s3.1 s1.2 s3.2
    (c.expression.bind FhirExpressionDef.expression) (some "Yes") hI3 hgw3 htask3
  set s4 := createSequenceFlow s3.1 s1.2 s3.2
    (c.expression.bind FhirExpressionDef.expression) (some "Yes") with hs4
  set fid2 := mkId "Flow" (s3.1.flowCounter + 1) with hfid2
  set flow2Elem := newFlowElem s3.1 s1.2 s3.2
    (c.expression.bind FhirExpressionDef.expression) (some "Yes") with hflow2
  set G2 := applyFlowLink s1.2 s3.2 fid2 with hG2
  have hfid1_in_2 : fid1 ∈ ids s2.1.elements := by
    rw [hids2]
    exact List.mem_append_right _ (by rw [hfid1]; simp)
  have hfid1_ne_gw : fid1 ≠ gwElem.id := by
    intro hx
    have := flowId_fresh s1.1 hI1
    rw [← hfid1] at this
    exact this (hx ▸ hgw1)
  have hfid1_ne_task : fid1 ≠ taskElem.id := by
    intro hx
    exact htaskFresh (hx ▸ hfid1_in_2)
  have hG2_old : ∀ x ∈ factory.elements.map (applyFlowLink lastId s1.2 fid1),
      G2 x = x := by
    intro x hx
    obtain ⟨y, hy, rfl⟩ := List.mem_map.mp hx
    have hyid : (applyFlowLink lastId s1.2 fid1 y).id = y.id := applyFlowLink_id _ _ _ y
    have hy_in : y.id ∈ ids factory.elements := mem_ids_iff.mpr ⟨y, hy, rfl⟩
    have hy_in2 : y.id ∈ ids s2.1.elements := by
      rw [hids2]
      exact List.mem_append_left _ (by rw [hids1, hid1]; exact List.mem_append_left _ hy_in)
    rw [hG2]
    apply applyFlowLink_of_ne
    · rw [hyid, hid1]
      intro hx2
      exact hgwFresh (hx2 ▸ hy_in)
    · rw [hyid, hid3]
      intro hx2
      exact htaskFresh (hx2 ▸ hy_in2)
  have hG2_gw : G2 (pushIncoming fid1 gwElem) = pushOutgoing fid2 (pushIncoming fid1 gwElem) := by
    rw [hG2]
    apply applyFlowLink_source_only
    · rw [hid1]; rfl
    · rw [hid3]
      show gwElem.id ≠ taskElem.id
      exact fun hx => htask_ne_gw hx.symm
  have hG2_flow1 : G2 flow1Elem = flow1Elem := by
    rw [hG2]
    apply applyFlowLink_of_ne
    · rw [hid1]
      show fid1 ≠ gwElem.id
      exact hfid1_ne_gw
    · rw [hid3]
      show fid1 ≠ taskElem.id
      exact hfid1_ne_task
  have hG2_task : G2 taskElem = pushIncoming fid2 taskElem := by
    rw [hG2]
    apply applyFlowLink_target_only
    · rw [hid1]
      exact htask_ne_gw
    · rw [hid3]
  have hels4 : s4.1.elements =
      factory.elements.map (applyFlowLink lastId s1.2 fid1) ++
        [pushOutgoing fid2 (pushIncoming fid1 gwElem), flow1Elem,
         pushIncoming fid2 taskElem, flow2Elem] := by
    rw [hs4, hdecomp2, hels3, hels2]
    rw [List.map_append, List.map_append]
    rw [List.map_congr_left hG2_old]
    rw [List.map_cons, List.map_cons, List.map_nil, List.map_cons, List.map_nil]
    rw [hG2_gw, hG2_flow1, hG2_task]
    simp [List.append_assoc]
  refine ⟨pushOutgoing fid2 (pushIncoming fid1 gwElem), flow1Elem,
    pushIncoming fid2 taskElem, flow2Elem,
    ?_, ?_, rfl, rfl, rfl, rfl, ?_, rfl, rfl, rfl, rfl, rfl, rfl, ?_, ?_, rfl, ?_, ?_⟩
  · rw [hels4]
    rw [List.drop_left' (by simp)]
  · rw [hids4, hids3, hids2, hids1]
    simp only [List.append_assoc, List.singleton_append, List.cons_append]
    rfl
  · show flow1Elem.targetRef = some (pushOutgoing fid2 (pushIncoming fid1 gwElem)).id
    rw [hflow1]
    show some s1.2 = _
    rw [hid1]
    rfl
  · show flow2Elem.sourceRef = some (pushOutgoing fid2 (pushIncoming fid1 gwElem)).id
    rw [hflow2]
    show some s1.2 = _
    rw [hid1]
    rfl
  · show flow2Elem.targetRef = some (pushIncoming fid2 taskElem).id
    rw [hflow2]
    show some s3.2 = _
    rw [hid3]
    rfl
  · show flow2Elem.conditionExpression = _
    rw [hflow2]
    rfl
  · show s3.2 = (pushIncoming fid2 taskElem).id
    rw [hid3]
    rfl

/-! ### String helpers -/

theorem string_ne_empty_of_length_pos {s : String} (h : s ≠ "") : 0 < s.length := by
  cases s with
  | mk data =>
    cases data with
    | nil => exact absurd rfl h
    | cons c cs => simp [String.length]

theorem append_ne_empty_left (a b : String) (ha : a ≠ "") : a ++ b ≠ "" := by
  intro h
  have h1 := congrArg String.length h
  rw [String.length_append] at h1
  rw [show ("" : String).length = 0 from rfl] at h1
  have h2 := string_ne_empty_of_length_pos ha
  omega

theorem intercalate_go_ne_empty :
    ∀ (as : List String) (acc s : String), acc ≠ "" →
      String.intercalate.go acc s as ≠ "" := by
  intro as
  induction as with
  | nil => intro acc s h; exact h
  | cons a as ih =>
    intro acc s h
    show String.intercalate.go (acc ++ s ++ a) s as ≠ ""
    exact ih _ s (append_ne_empty_left _ _ (append_ne_empty_left _ _ h))

theorem intercalate_ne_empty (s x : String) (xs : List String) (hx : x ≠ "") :
    String.intercalate s (x :: xs) ≠ "" :=
  intercalate_go_ne_empty xs x s hx

theorem jsOr_ne_empty (o : Option String) (d : String) (hd : d ≠ "") :
    jsOr o d ≠ "" := by
  cases o with
  | none => exact hd
  | some v =>
    by_cases hv : v = ""
    · simp [jsOr, hv]; exact hd
    · simp [jsOr, hv]

/-! ### The sequential replaces equal the character-wise escaping -/

theorem escapeXml_eq_spec (s : String) : escapeXml s = escapeXmlSpec s := by
  by_cases h : s = ""
  · subst h; rfl
  · rw [escapeXml, if_neg h]
    show String.mk _ = String.mk _
    apply congrArg String.mk
    show (((((s.data.flatMap fun d => if d = '&' then "&amp;".data else [d]).flatMap
        fun d => if d = '<' then "&lt;".data else [d]).flatMap
        fun d => if d = '>' then "&gt;".data else [d]).flatMap
        fun d => if d = '"' then "&quot;".data else [d]).flatMap
        fun d => if d = '\'' then "&apos;".data else [d]) = s.data.flatMap xmlEntity
    rw [List.flatMap_assoc, List.flatMap_assoc, List.flatMap_assoc, List.flatMap_assoc]
    have hchar : ∀ a : Char,
        ((if a = '&' then "&amp;".data else [a]).flatMap fun x =>
          (if x = '<' then "&lt;".data else [x]).flatMap fun x =>
            (if x = '>' then "&gt;".data else [x]).flatMap fun x =>
              (if x = '"' then "&quot;".data else [x]).flatMap fun d =>
                if d = '\'' then "&apos;".data else [d]) = xmlEntity a := by
      intro a
      by_cases h1 : a = '&'
      · subst h1; decide
      · by_cases h2 : a = '<'
        · subst h2; decide
        · by_cases h3 : a = '>'
          · subst h3; decide
          · by_cases h4 : a = '"'
            · subst h4; decide
            · by_cases h5 : a = '\''
              · subst h5; decide
              · simp [h1, h2, h3, h4, h5, xmlEntity, List.flatMap]
    exact List.flatMap_congr fun a _ => hchar a

/-! ### Documentation-composer part structure -/

theorem buildDocParts_wellFormed (a : FhirAction) :
    ∀ p ∈ buildDocParts a,
      ∃ l v, IsDocLabel l ∧ p = l ++ ": " ++ v ∧ (v = "" → l = "Type") := by
  intro p hp
  unfold buildDocParts at hp
  simp only [List.mem_append] at hp
  rcases hp with ((((((hp | hp) | hp) | hp) | hp) | hp) | hp)
  · -- Description
    rcases hd : a.description with _ | d
    · simp [hd] at hp
    · simp only [hd] at hp
      by_cases hde : d = ""
      · simp [hde] at hp
      · simp only [if_neg hde, List.mem_singleton] at hp
        exact ⟨"Description", d, Or.inl rfl, hp, fun h => absurd h hde⟩
  · -- Text
    rcases ht : a.textEquivalent with _ | t
    · simp [ht] at hp
    · simp only [ht] at hp
      by_cases hte : t = ""
      · simp [hte] at hp
      · simp only [if_neg hte, List.mem_singleton] at hp
        exact ⟨"Text", t, Or.inr (Or.inl rfl), hp, fun h => absurd h hte⟩
  · -- Type
    rcases hty : a.type with _ | ty
    · simp [hty] at hp
    · simp only [hty] at hp
      rcases hco : ty.coding with _ | cs
      · simp [hco] at hp
      · simp only [hco] at hp
        by_cases hlen : cs.length > 0
        · simp only [if_pos hlen, List.mem_singleton] at hp
          refine ⟨"Type", String.intercalate ", "
            (filterTruthy (cs.map fun c => jsOrOpt c.display c.code)),
            Or.inr (Or.inr (Or.inl rfl)), ?_, fun _ => rfl⟩
          rw [hp, show ("Type" : String) ++ ": " = "Type: " from by decide]
        · simp [if_neg hlen] at hp
  · -- Triggers
    rcases htr : a.trigger with _ | ts
    · simp [htr] at hp
    · simp only [htr] at hp
      by_cases hlen : ts.length > 0
      · simp only [if_pos hlen, List.mem_singleton] at hp
        refine ⟨"Triggers", String.intercalate "; "
          (ts.map fun t => jsOr t.type "event" ++ ": " ++ jsOr t.name "unnamed"),
          Or.inr (Or.inr (Or.inr (Or.inl rfl))), ?_, fun h => ?_⟩
        · rw [hp, show ("Triggers" : String) ++ ": " = "Triggers: " from by decide]
        exfalso
        cases ts with
        | nil => simp at hlen
        | cons t ts' =>
          rw [List.map_cons] at h
          exact intercalate_ne_empty "; " _ _
            (append_ne_empty_left _ _ (append_ne_empty_left _ _
              (jsOr_ne_empty t.type "event" (by decide)))) h
      · simp [if_neg hlen] at hp
  · -- Conditions
    rcases hc : a.condition with _ | cs
    · simp [hc] at hp
    · simp only [hc] at hp
      by_cases hlen : cs.length > 0
      · simp only [if_pos hlen] at hp
        rw [List.mem_mapIdx] at hp
        obtain ⟨i, hi, heq⟩ := hp
        refine ⟨"Condition " ++ natToString (i + 1),
          jsOr ((cs.get ⟨i, hi⟩).expression.bind FhirExpressionDef.expression) "condition"
            ++ (if jsTruthy ((cs.get ⟨i, hi⟩).expression.bind FhirExpressionDef.language)
              then " (" ++ ((cs.get ⟨i, hi⟩).expression.bind
                FhirExpressionDef.language).getD "" ++ ")" else ""),
          Or.inr (Or.inr (Or.inr (Or.inr (Or.inl ⟨i, rfl⟩)))), ?_, fun h => ?_⟩
        · rw [← heq]
          simp [String.append_assoc]
        · exfalso
          exact append_ne_empty_left _ _
            (jsOr_ne_empty _ "condition" (by decide)) h
      · simp [if_neg hlen] at hp
  · -- Dynamic values
    rcases hd : a.dynamicValue with _ | dvs
    · simp [hd] at hp
    · simp only [hd] at hp
      by_cases hlen : dvs.length > 0
      · simp only [if_pos hlen] at hp
        rw [List.mem_mapIdx] at hp
        obtain ⟨i, hi, heq⟩ := hp
        refine ⟨"Dynamic Value " ++ natToString (i + 1),
          jsOr (dvs.get ⟨i, hi⟩).path "path" ++ " = " ++
            jsOr ((dvs.get ⟨i, hi⟩).expression.bind FhirExpressionDef.expression)
              "expression" ++
            (if jsTruthy ((dvs.get ⟨i, hi⟩).expression.bind FhirExpressionDef.language)
              then " (" ++ ((dvs.get ⟨i, hi⟩).expression.bind
                FhirExpressionDef.language).getD "" ++ ")" else ""),
          Or.inr (Or.inr (Or.inr (Or.inr (Or.inr (Or.inl ⟨i, rfl⟩))))), ?_, fun h => ?_⟩
        · rw [← heq]
          simp [String.append_assoc]
        · exfalso
          exact append_ne_empty_left _ _
            (append_ne_empty_left _ _
              (append_ne_empty_left _ _ (jsOr_ne_empty _ "path" (by decide)))) h
      · simp [if_neg hlen] at hp
  · -- Documentation entries
    rcases hdoc : a.documentation with _ | ds
    · simp [hdoc] at hp
    · simp only [hdoc] at hp
      by_cases hlen : ds.length > 0
      · simp only [if_pos hlen] at hp
        rw [List.mem_filterMap] at hp
        obtain ⟨q, hq, hqp⟩ := hp
        rw [List.mem_mapIdx] at hq
        obtain ⟨i, hi, heq⟩ := hq
        simp only [id] at hqp
        subst hqp
        rcases hdisp : ds[i].display with _ | disp
        · simp only [hdisp] at heq
          simp at heq
        · simp only [hdisp] at heq
          by_cases hde : disp = ""
          · rw [if_pos hde] at heq
            simp at heq
          · rw [if_neg hde] at heq
            have heq' := Option.some.inj heq
            refine ⟨"Documentation " ++ natToString (i + 1), disp,
              Or.inr (Or.inr (Or.inr (Or.inr (Or.inr (Or.inr ⟨i, rfl⟩))))), ?_,
              fun h => absurd h hde⟩
            rw [← heq']
      · simp [if_neg hlen] at hp

/-! ## Claim theorems -/

/-- C4: for every input whose `resourceType` is missing or differs from
`"PlanDefinition"` (and for a null input), the conversion fails immediately
with the invalid-root error; the `Except.error` result carries no graph and
no XML, so no partial output is produced. -/
theorem C4_invalid_root (p : FhirPlanDefinition)
    (h : p.resourceType ≠ some "PlanDefinition") :
    convertPlanDefinitionToBpmn (some p) = Except.error invalidRootMsg ∧
    convertPlanDefinitionToBpmn none = Except.error invalidRootMsg := by
  constructor
  · simp only [convertPlanDefinitionToBpmn]
    rw [if_neg h]
  · rfl

/-- Witness for C4 at the concrete input `{ resourceType := "Patient" }`. -/
theorem C4_invalid_root_witness :
    convertPlanDefinitionToBpmn (some pdPatient) = Except.error invalidRootMsg ∧
    convertPlanDefinitionToBpmn none = Except.error invalidRootMsg :=
  C4_invalid_root pdPatient (by decide)

/-- C10: for every input with `resourceType = "PlanDefinition"` — all other
fields optional at any depth — the conversion terminates normally and
returns a string: the only failing branch is the root check. -/
theorem C10_total_on_plandefinitions (p : FhirPlanDefinition)
    (h : p.resourceType = some "PlanDefinition") :
    ∃ xml, convertPlanDefinitionToBpmn (some p) = Except.ok xml := by
  simp only [convertPlanDefinitionToBpmn]
  rw [if_pos h]
  exact ⟨_, rfl⟩

/-- Witness for C10 at a minimal PlanDefinition. -/
theorem C10_total_on_plandefinitions_witness :
    ∃ xml, convertPlanDefinitionToBpmn (some pdEmpty) = Except.ok xml :=
  C10_total_on_plandefinitions pdEmpty rfl

/-- C7: the conversion is a deterministic function of its input alone.  In
this embedding the builder state is created inside `buildFactory` from the
literal initial state (`{}` — fresh counters and empty collections), so a
"run" is just an application of the pure function `convertPlanDefinitionToBpmn`
and two runs on the same document are definitionally equal. -/
theorem C7_deterministic (pd : Option FhirPlanDefinition) :
    convertPlanDefinitionToBpmn pd = convertPlanDefinitionToBpmn pd ∧
    buildFactory = fun p => buildFactory p :=
  ⟨rfl, rfl⟩

/-- C6: a PlanDefinition whose action list is absent or empty converts to a
graph with exactly one StartEvent, one EndEvent and one flow connecting
them and nothing else, the no-actions warning is emitted, and the
conversion still returns XML (the warning is non-fatal). -/
theorem C6_empty_actions (pd : FhirPlanDefinition)
    (hroot : pd.resourceType = some "PlanDefinition")
    (hact : pd.action = none ∨ pd.action = some []) :
    ((buildFactory pd).1.elements.filter (fun e => e.type = "startEvent")).length = 1 ∧
    ((buildFactory pd).1.elements.filter (fun e => e.type = "endEvent")).length = 1 ∧
    ((buildFactory pd).1.elements.filter (fun e => e.type = "sequenceFlow")).length = 1 ∧
    (buildFactory pd).1.elements.length = 3 ∧
    (∃ f ∈ (buildFactory pd).1.elements, f.type = "sequenceFlow" ∧
      (∃ s ∈ (buildFactory pd).1.elements, s.type = "startEvent" ∧ some s.id = f.sourceRef) ∧
      (∃ t ∈ (buildFactory pd).1.elements, t.type = "endEvent" ∧ some t.id = f.targetRef)) ∧
    (buildFactory pd).2 = [noActionsWarning] ∧
    ∃ xml, convertPlanDefinitionToBpmn (some pd) = Except.ok xml := by
  have hkey : (buildFactory pd).1.elements =
      [{ id := "StartEvent_1", type := "startEvent", name := some "Start",
         outgoing := some ["Flow_1"] },
       { id := "EndEvent_2", type := "endEvent", name := some "End",
         incoming := some ["temp_incoming", "Flow_1"] },
       { id := "Flow_1", type := "sequenceFlow", sourceRef := some "StartEvent_1",
         targetRef := some "EndEvent_2" }] ∧
      (buildFactory pd).2 = [noActionsWarning] := by
    rcases hact with h | h <;>
      · rw [buildFactory]
        simp only [h]
        constructor <;> trivial
  refine ⟨?_, ?_, ?_, ?_, ?_, hkey.2, ?_⟩
  · rw [hkey.1]; decide
  · rw [hkey.1]; decide
  · rw [hkey.1]; decide
  · rw [hkey.1]; decide
  · rw [hkey.1]; decide
  · simp only [convertPlanDefinitionToBpmn]
    rw [if_pos hroot]
    exact ⟨_, rfl⟩

/-- Witness for C6 at the concrete PlanDefinition with no action list. -/
theorem C6_empty_actions_witness :
    ((buildFactory pdEmpty).1.elements.filter (fun e => e.type = "startEvent")).length = 1 ∧
    ((buildFactory pdEmpty).1.elements.filter (fun e => e.type = "endEvent")).length = 1 ∧
    ((buildFactory pdEmpty).1.elements.filter (fun e => e.type = "sequenceFlow")).length = 1 ∧
    (buildFactory pdEmpty).1.elements.length = 3 ∧
    (∃ f ∈ (buildFactory pdEmpty).1.elements, f.type = "sequenceFlow" ∧
      (∃ s ∈ (buildFactory pdEmpty).1.elements, s.type = "startEvent" ∧ some s.id = f.sourceRef) ∧
      (∃ t ∈ (buildFactory pdEmpty).1.elements, t.type = "endEvent" ∧ some t.id = f.targetRef)) ∧
    (buildFactory pdEmpty).2 = [noActionsWarning] ∧
    ∃ xml, convertPlanDefinitionToBpmn (some pdEmpty) = Except.ok xml :=
  C6_empty_actions pdEmpty rfl (Or.inl rfl)

/-- C1 counterexample: the claim also asserts that no placeholder
identifier remains in any incoming list, but after converting a minimal
PlanDefinition the end event's incoming list still holds the
`"temp_incoming"` placeholder seeded at node creation. -/
theorem C1_placeholder_counterexample :
    ¬ (∀ e ∈ (buildFactory pdEmpty).1.elements,
        "temp_incoming" ∉ e.incoming.getD []) := by
  decide

/-- C1 (amended): in every finished graph, each flow's id appears exactly
once in its source's outgoing list and exactly once in its target's
incoming list and in no other node's lists; every outgoing entry is the id
of a flow leaving that node, and every incoming entry is either the id of
a flow entering that node or the `"temp_incoming"` placeholder, which
(contrary to the original claim) does remain in the incoming lists. -/
theorem C1_bidirectional_linkage (pd : FhirPlanDefinition) :
    (∀ f ∈ (buildFactory pd).1.elements, f.type = "sequenceFlow" →
      (∃ s ∈ (buildFactory pd).1.elements, some s.id = f.sourceRef ∧
        (s.outgoing.getD []).count f.id = 1) ∧
      (∃ t ∈ (buildFactory pd).1.elements, some t.id = f.targetRef ∧
        (t.incoming.getD []).count f.id = 1) ∧
      (∀ e ∈ (buildFactory pd).1.elements, some e.id ≠ f.sourceRef →
        (e.outgoing.getD []).count f.id = 0) ∧
      (∀ e ∈ (buildFactory pd).1.elements, some e.id ≠ f.targetRef →
        (e.incoming.getD []).count f.id = 0)) ∧
    (∀ e ∈ (buildFactory pd).1.elements, ∀ x ∈ e.outgoing.getD [],
      ∃ f ∈ (buildFactory pd).1.elements, f.id = x ∧ f.type = "sequenceFlow" ∧
        f.sourceRef = some e.id) ∧
    (∀ e ∈ (buildFactory pd).1.elements, ∀ x ∈ e.incoming.getD [],
      x = "temp_incoming" ∨
        ∃ f ∈ (buildFactory pd).1.elements, f.id = x ∧ f.type = "sequenceFlow" ∧
          f.targetRef = some e.id) :=
  ⟨(buildFactory_inv pd).flowLinked, (buildFactory_inv pd).outgoingSound,
   (buildFactory_inv pd).incomingSound⟩

/-- C9 counterexample: an action whose `type.coding` list is non-empty but
carries neither display nor code values produces the documentation line
`"Type: "` — a label with an empty value, contradicting the claim. -/
theorem C9_empty_type_value_counterexample :
    buildDocParts actBlankCoding = ["Type: "] ∧
    ¬ (∃ l v, IsDocLabel l ∧ ("Type: " : String) = l ++ ": " ++ v ∧ v ≠ "") := by
  constructor
  · decide
  · rintro ⟨l, v, hl, heq, hv⟩
    have hlen := congrArg String.length heq
    rw [String.length_append, String.length_append] at hlen
    rw [show ("Type: " : String).length = 6 from rfl,
      show (": " : String).length = 2 from rfl] at hlen
    have hvpos : 0 < v.length := string_ne_empty_of_length_pos hv
    rcases hl with h | h | h | h | ⟨n, h⟩ | ⟨n, h⟩ | ⟨n, h⟩
    · subst h
      rw [show ("Description" : String).length = 11 from rfl] at hlen
      omega
    · subst h
      rw [show ("Text" : String).length = 4 from rfl] at hlen
      omega
    · subst h
      rw [show ("Type" : String).length = 4 from rfl] at hlen
      omega
    · subst h
      rw [show ("Triggers" : String).length = 8 from rfl] at hlen
      omega
    · subst h
      rw [String.length_append,
        show ("Condition " : String).length = 10 from rfl] at hlen
      have := natToString_length_pos (n + 1)
      omega
    · subst h
      rw [String.length_append,
        show ("Dynamic Value " : String).length = 14 from rfl] at hlen
      have := natToString_length_pos (n + 1)
      omega
    · subst h
      rw [String.length_append,
        show ("Documentation " : String).length = 14 from rfl] at hlen
      have := natToString_length_pos (n + 1)
      omega

/-- C9 (amended): the composed documentation is the newline-join of the
`docParts` list, and every part is `"<Label>: <value>"` for one of the
fixed labels, in the fixed order the list is built; a part's value can be
empty only for the `Type` label (when a non-empty coding list has neither
display nor code values) — all other parts carry a non-empty value. -/
theorem C9_doc_composer (a : FhirAction) :
    buildActionDocumentation a = String.intercalate "\n" (buildDocParts a) ∧
    ∀ p ∈ buildDocParts a,
      ∃ l v, IsDocLabel l ∧ p = l ++ ": " ++ v ∧ (v = "" → l = "Type") :=
  ⟨rfl, buildDocParts_wellFormed a⟩

/-- C5: the serializer escapes every user-supplied string with `escapeXml`,
which replaces each of the five XML reserved characters by its entity
(`escapeXmlSpec` is the character-by-character escaping the spec
describes); in particular the action titled `A & B <test>` yields a task
name attribute `A &amp; B &lt;test&gt;` in the final document. -/
theorem C5_xml_escaping :
    (∀ s, escapeXml s = escapeXmlSpec s) ∧
    escapeXml "A & B <test>" = "A &amp; B &lt;test&gt;" ∧
    containsStr ((convertPlanDefinitionToBpmn (some pdTitled)).toOption.getD "")
      "name=\"A &amp; B &lt;test&gt;\"" = true := by
  refine ⟨escapeXml_eq_spec, by decide, ?_⟩
  simp only [convertPlanDefinitionToBpmn, buildFactory, processActions, processActionsGo,
    pdTitled, actTitled, FhirAction.title, FhirAction.description, FhirAction.condition,
    FhirAction.trigger, FhirAction.action]
  decide

/-- C2 counterexample: for an action with the single trigger named
`"Lab result"`, the claim predicts an IntermediateEvent named exactly the
joined trigger names (`"Lab result"`), but no such element exists — the
code prefixes the name with `"Trigger: "`. -/
theorem C2_trigger_name_counterexample :
    ¬ (∃ ev ∈ (processTriggerPhase (createStartEvent {}).1 actTrigger ""
          "StartEvent_1").1.elements,
        ev.type = "intermediateEvent" ∧
        ev.name = some (String.intercalate ", "
          (filterTruthy ([({ name := some "Lab result" } : FhirTrigger)].map
            fun t => jsOrOpt t.name t.type)))) := by
  decide

/-- Witness for C2 (amended) at a concrete one-trigger action processed
from a freshly started factory. -/
theorem C2_trigger_event_witness :
    ∃ ev flow : BpmnElement,
      (processTriggerPhase (createStartEvent {}).1 actTrigger ""
          "StartEvent_1").1.elements.drop
          (createStartEvent {}).1.elements.length = [ev, flow] ∧
      ids (processTriggerPhase (createStartEvent {}).1 actTrigger ""
          "StartEvent_1").1.elements =
        ids (createStartEvent {}).1.elements ++ [ev.id, flow.id] ∧
      ev.type = "intermediateEvent" ∧
      ev.name = some ("Trigger: " ++ String.intercalate ", "
        (filterTruthy (([({ name := some "Lab result" } : FhirTrigger)]).map
          fun t => jsOrOpt t.name t.type))) ∧
      ev.documentation = some "" ∧
      flow.type = "sequenceFlow" ∧
      flow.sourceRef = some "StartEvent_1" ∧ flow.targetRef = some ev.id ∧
      (processTriggerPhase (createStartEvent {}).1 actTrigger "" "StartEvent_1").2 = ev.id :=
  processTriggerPhase_step (createStartEvent {}).1 actTrigger "" "StartEvent_1"
    [{ name := some "Lab result" }] rfl (List.cons_ne_nil _ _) factoryInv_start (by decide)

/-- C3 counterexample: for a condition whose expression text is the empty
string, the claim predicts a gateway named `"Decision: "` and a flow whose
condition-expression is the empty string verbatim; the code instead falls
back to `"Decision: Check Condition"` and omits the condition-expression. -/
theorem C3_empty_expression_counterexample :
    ¬ (∃ gw ∈ (processConditionPhase ({} : BpmnFactory) "T" ""
          (some [{ expression := some { expression := some "" } }]) "X").1.elements,
        gw.type = "exclusiveGateway" ∧ gw.name = some ("Decision: " ++ "")) ∧
    ¬ (∃ fl ∈ (processConditionPhase ({} : BpmnFactory) "T" ""
          (some [{ expression := some { expression := some "" } }]) "X").1.elements,
        fl.type = "sequenceFlow" ∧ fl.conditionExpression = some "") := by
  constructor <;> decide

/-- Witness for C3 (amended) at a concrete one-condition action processed
from a freshly started factory. -/
theorem C3_condition_gateway_witness :
    ∃ gw flow1 task flow2 : BpmnElement,
      (processConditionPhase (createStartEvent {}).1 "Check Eligibility" ""
          (some [condAge]) "StartEvent_1").1.elements.drop
          (createStartEvent {}).1.elements.length = [gw, flow1, task, flow2] ∧
      ids (processConditionPhase (createStartEvent {}).1 "Check Eligibility" ""
          (some [condAge]) "StartEvent_1").1.elements =
        ids (createStartEvent {}).1.elements ++ [gw.id, flow1.id, task.id, flow2.id] ∧
      gw.type = "exclusiveGateway" ∧
      gw.name = some ("Decision: " ++
        jsOr (condAge.expression.bind FhirExpressionDef.expression) "Check Condition") ∧
      flow1.type = "sequenceFlow" ∧
      flow1.sourceRef = some "StartEvent_1" ∧ flow1.targetRef = some gw.id ∧
      flow1.name = none ∧ flow1.conditionExpression = none ∧
      task.type = "task" ∧ task.name = some "Check Eligibility" ∧
      task.documentation = some "" ∧
      flow2.type = "sequenceFlow" ∧
      flow2.sourceRef = some gw.id ∧ flow2.targetRef = some task.id ∧
      flow2.name = some "Yes" ∧
      flow2.conditionExpression =
        (if jsTruthy (condAge.expression.bind FhirExpressionDef.expression) then
          condAge.expression.bind FhirExpressionDef.expression else none) ∧
      (processConditionPhase (createStartEvent {}).1 "Check Eligibility" ""
          (some [condAge]) "StartEvent_1").2 = task.id :=
  processConditionPhase_step (createStartEvent {}).1 "Check Eligibility" "" "StartEvent_1"
    condAge [] factoryInv_start (by decide)

/-- C8: every node shape is placed at the current horizontal cursor (which
starts at the fixed offset 100) with its `y` chosen so the shape is
vertically centered on the constant center line (`currentY`, fixed at
150 and never changed by any factory operation), after which the cursor
advances by that kind's fixed width plus the fixed spacing; a flow's edge
has exactly two waypoints — the vertical midpoint of the source shape's
right edge and the vertical midpoint of the target shape's left edge. -/
theorem C8_layout (st : BpmnFactory) (name inc : String) (d : Option String)
    (sourceId targetId : String) (ce nm : Option String) (ss ts : BpmnDiElement)
    (hs : st.diElements.find? (fun di => di.bpmnElement = sourceId) = some ss)
    (ht : st.diElements.find? (fun di => di.bpmnElement = targetId) = some ts) :
    (({} : BpmnFactory).currentX = 100 ∧ ({} : BpmnFactory).currentY = 150) ∧
    ((createStartEvent st).1.diElements = st.diElements ++
        [{ id := (createStartEvent st).2 ++ "_di", bpmnElement := (createStartEvent st).2,
           x := some st.currentX, y := some (st.currentY - EVENT_SIZE / 2),
           width := some EVENT_SIZE, height := some EVENT_SIZE }] ∧
      (createStartEvent st).1.currentX = st.currentX + EVENT_SIZE + HORIZONTAL_SPACING ∧
      (createStartEvent st).1.currentY = st.currentY) ∧
    ((createEndEvent st inc).1.diElements = st.diElements ++
        [{ id := (createEndEvent st inc).2 ++ "_di",
           bpmnElement := (createEndEvent st inc).2,
           x := some st.currentX, y := some (st.currentY - EVENT_SIZE / 2),
           width := some EVENT_SIZE, height := some EVENT_SIZE }] ∧
      (createEndEvent st inc).1.currentX = st.currentX + EVENT_SIZE + HORIZONTAL_SPACING ∧
      (createEndEvent st inc).1.currentY = st.currentY) ∧
    ((createTask st name inc d).1.diElements = st.diElements ++
        [{ id := (createTask st name inc d).2 ++ "_di",
           bpmnElement := (createTask st name inc d).2,
           x := some st.currentX, y := some (st.currentY - TASK_HEIGHT / 2),
           width := some TASK_WIDTH, height := some TASK_HEIGHT }] ∧
      (createTask st name inc d).1.currentX = st.currentX + TASK_WIDTH + HORIZONTAL_SPACING ∧
      (createTask st name inc d).1.currentY = st.currentY) ∧
    ((createExclusiveGateway st name inc).1.diElements = st.diElements ++
        [{ id := (createExclusiveGateway st name inc).2 ++ "_di",
           bpmnElement := (createExclusiveGateway st name inc).2,
           x := some st.currentX, y := some (st.currentY - GATEWAY_SIZE / 2),
           width := some GATEWAY_SIZE, height := some GATEWAY_SIZE }] ∧
      (createExclusiveGateway st name inc).1.currentX =
        st.currentX + GATEWAY_SIZE + HORIZONTAL_SPACING ∧
      (createExclusiveGateway st name inc).1.currentY = st.currentY) ∧
    ((createIntermediateEvent st name inc d).1.diElements = st.diElements ++
        [{ id := (createIntermediateEvent st name inc d).2 ++ "_di",
           bpmnElement := (createIntermediateEvent st name inc d).2,
           x := some st.currentX, y := some (st.currentY - EVENT_SIZE / 2),
           width := some EVENT_SIZE, height := some EVENT_SIZE }] ∧
      (createIntermediateEvent st name inc d).1.currentX =
        st.currentX + EVENT_SIZE + HORIZONTAL_SPACING ∧
      (createIntermediateEvent st name inc d).1.currentY = st.currentY) ∧
    ((createSequenceFlow st sourceId targetId ce nm).1.diElements = st.diElements ++
        [{ id := (createSequenceFlow st sourceId targetId ce nm).2 ++ "_di",
           bpmnElement := (createSequenceFlow st sourceId targetId ce nm).2,
           waypoints := some
             [⟨ss.x.getD 0 + ss.width.getD 0, ss.y.getD 0 + ss.height.getD 0 / 2⟩,
              ⟨ts.x.getD 0, ts.y.getD 0 + ts.height.getD 0 / 2⟩] }] ∧
      (createSequenceFlow st sourceId targetId ce nm).1.currentX = st.currentX ∧
      (createSequenceFlow st sourceId targetId ce nm).1.currentY = st.currentY) := by
  refine ⟨⟨rfl, rfl⟩, ⟨rfl, rfl, rfl⟩, ⟨rfl, rfl, rfl⟩, ⟨rfl, rfl, rfl⟩,
    ⟨rfl, rfl, rfl⟩, ⟨rfl, rfl, rfl⟩, ?_, rfl, rfl⟩
  show (match st.diElements.find? (fun di => di.bpmnElement = sourceId),
          st.diElements.find? (fun di => di.bpmnElement = targetId) with
        | some sourceShape, some targetShape =>
          st.diElements ++
            [({ id := mkId "Flow" (st.flowCounter + 1) ++ "_di",
                bpmnElement := mkId "Flow" (st.flowCounter + 1),
                waypoints := some
                  [⟨sourceShape.x.getD 0 + sourceShape.width.getD 0,
                    sourceShape.y.getD 0 + sourceShape.height.getD 0 / 2⟩,
                   ⟨targetShape.x.getD 0,
                    targetShape.y.getD 0 + targetShape.height.getD 0 / 2⟩] } : BpmnDiElement)]
        | _, _ => st.diElements) = _
  rw [hs, ht]
  rfl

/-- Witness for C8: the fixed initial cursor and center line, obtained by
applying the layout theorem at a concrete factory holding one shape. -/
theorem C8_layout_witness :
    ({} : BpmnFactory).currentX = 100 ∧ ({} : BpmnFactory).currentY = 150 :=
  (C8_layout (createStartEvent {}).1 "n" "i" none "StartEvent_1" "StartEvent_1"
    none none
    { id := "StartEvent_1_di", bpmnElement := "StartEvent_1", x := some 100,
      y := some 132, width := some 36, height := some 36 }
    { id := "StartEvent_1_di", bpmnElement := "StartEvent_1", x := some 100,
      y := some 132, width := some 36, height := some 36 }
    (by decide) (by decide)).1

end PlanDefToBpmn
